import Mathlib

/-!
Shallow embedding of the client/agent data-access and aggregation layer of
the Conclave_Base repository (src/app/crud.py, src/app/models.py,
src/app/schemas.py, src/app/api/clients.py and the alembic migration
ff8fddb0819d_add_agent_external_id.py).

Modelling conventions:
 - UUID primary keys are modelled as `Nat` drawn from a fresh-id counter
   `uuidSeq` (uuid4 is modelled only through its freshness).
 - Timestamps and dates are `Nat` (a monotone abstract clock `now`).
 - The relational store is a record of lists of rows, in insertion order;
   a SQL SELECT without ORDER BY returns rows in store order.
 - PostgreSQL sequences (`agent_external_id_seq`, `client_external_id_seq`,
   the PHONE autoincrement) are counters in the state.
 - A transaction is a pure function `DB → DB × result`; a rollback returns
   the input state unchanged, mirroring `db.rollback()` on the failure
   paths of crud.py.
-/

namespace Conclave

/-- Error taxonomy of the crud layer: `ValueError` on a missing referenced
agent/client is `referenceNotFound`, `ValueError` on delete with dependents
is `conflict`, an `IntegrityError`/storage failure at commit is
`storageError`. -/
inductive CrudErr where
  | referenceNotFound
  | conflict
  | storageError
deriving DecidableEq, Repr

/-- Row of table AGENT (models.py, class Agent). `middle_name` is a nullable
column. -/
structure Agent where
  agent_id : Nat
  external_id : Nat
  last_name : String
  first_name : String
  middle_name : Option String
  legal_address : String
  actual_address : String
  inn : String
  ogrnip : String
  account_number : String
  correspondent_account : String
  bic : String
deriving DecidableEq, Repr

/-- Row of table STATUS (models.py, class Status). -/
structure Status where
  status_code : String
  description : String
deriving DecidableEq, Repr

/-- Row of table STAGE (models.py, class Stage). -/
structure Stage where
  stage_code : String
  description : String
deriving DecidableEq, Repr

/-- Row of table CLIENT (models.py, class Client). `middle_name`, `deadline`
and `notes` are nullable columns. -/
structure Client where
  client_id : Nat
  external_id : Nat
  last_name : String
  first_name : String
  middle_name : Option String
  status_code : String
  current_stage : String
  agent_id : Nat
  deadline : Option Nat
  created_at : Nat
  updated_at : Nat
  notes : Option String
deriving DecidableEq, Repr

/-- Row of table PHONE (models.py, class Phone); `phone_id` is an
autoincrement integer key. -/
structure Phone where
  phone_id : Nat
  client_id : Nat
  number : String
  created_at : Nat
deriving DecidableEq, Repr

/-- Row of table PASSPORT (models.py, class Passport), including the later
added nullable columns `birth_date` and `department_code`. -/
structure Passport where
  passport_id : Nat
  client_id : Nat
  full_name : String
  birth_date : Option Nat
  birth_place : String
  series_number : String
  issued_by : String
  issue_date : Nat
  department_code : Option String
  expiry_date : Option Nat
  registration_address : String
  version : Nat
  created_at : Nat
deriving DecidableEq, Repr

/-- Row of table SNILS (models.py, class Snils). -/
structure Snils where
  snils_id : Nat
  client_id : Nat
  number : String
  issued_date : Option Nat
  version : Nat
  created_at : Nat
deriving DecidableEq, Repr

/-- Row of table DOCUMENT (models.py, class Document). -/
structure Document where
  document_id : Nat
  client_id : Nat
  type_code : String
  filename : String
  object_key : String
  version : Nat
  uploaded_at : Nat
deriving DecidableEq, Repr

/-- Row of table REMINDER (models.py, class Reminder). -/
structure Reminder where
  reminder_id : Nat
  client_id : Nat
  service_stage : String
  remind_at : Nat
  created_at : Nat
deriving DecidableEq, Repr

/-- The relational store plus the server-side generators: the two external-id
sequences created by migration ff8fddb0819d, the PHONE autoincrement counter,
a fresh-UUID counter, and the clock backing `func.now()`. -/
structure DB where
  agents : List Agent
  clients : List Client
  phones : List Phone
  passports : List Passport
  snils : List Snils
  documents : List Document
  reminders : List Reminder
  statuses : List Status
  stages : List Stage
  agentSeq : Nat
  clientSeq : Nat
  phoneSeq : Nat
  uuidSeq : Nat
  now : Nat
deriving DecidableEq, Repr

/-- Embedding of `db.get(models.Agent, id)`. -/
def findAgent (db : DB) (id : Nat) : Option Agent :=
  db.agents.find? (fun a => a.agent_id == id)

/-- Embedding of `db.get(models.Client, id)`. -/
def findClient (db : DB) (id : Nat) : Option Client :=
  db.clients.find? (fun c => c.client_id == id)

/-- Embedding of `db.get(models.Status, code)` — STATUS is keyed by `status_code`. -/
def getStatus (db : DB) (code : String) : Option Status :=
  db.statuses.find? (fun st => st.status_code == code)

/-- Embedding of `db.get(models.Stage, code)` — STAGE is keyed by `stage_code`. -/
def getStage (db : DB) (code : String) : Option Stage :=
  db.stages.find? (fun sg => sg.stage_code == code)

/-- Entry of the `phones` list built by `_client_to_dict` (crud.py): the four
keys of the phone dict. -/
structure PhoneOut where
  phone_id : Nat
  client_id : Nat
  number : String
  created_at : Nat
deriving DecidableEq, Repr

/-- The `agent` summary dict built by `_client_to_dict`. -/
structure AgentSummary where
  agent_id : Nat
  external_id : Nat
  last_name : String
  first_name : String
  middle_name : Option String
deriving DecidableEq, Repr

/-- The `status` summary dict built by `_client_to_dict`. -/
structure StatusSummary where
  status_code : String
  description : String
deriving DecidableEq, Repr

/-- The `stage` summary dict built by `_client_to_dict`. -/
structure StageSummary where
  stage_code : String
  description : String
deriving DecidableEq, Repr

/-- Entry of the `passports` list of a dossier, in the shape of the response
model `schemas.PassportRead`.  The dict built by `_client_to_dict` carries
the keys passport_id, client_id, full_name, birth_place, series_number,
issued_by, issue_date, expiry_date, registration_address, version,
created_at — it has NO `birth_date` and NO `department_code` key, so the
response model fills those two fields with null. -/
structure PassportOut where
  passport_id : Nat
  client_id : Nat
  full_name : String
  birth_date : Option Nat
  birth_place : String
  series_number : String
  issued_by : String
  issue_date : Nat
  department_code : Option String
  expiry_date : Option Nat
  registration_address : String
  version : Nat
  created_at : Nat
deriving DecidableEq, Repr

/-- Entry of the `snils` list built by `_client_to_dict`. -/
structure SnilsOut where
  snils_id : Nat
  client_id : Nat
  number : String
  issued_date : Option Nat
  version : Nat
  created_at : Nat
deriving DecidableEq, Repr

/-- The dict returned by `_client_to_dict` (serialized as
`schemas.ClientRead`): the client columns plus the nested summaries and
collections. -/
structure ClientDossier where
  client_id : Nat
  external_id : Nat
  last_name : String
  first_name : String
  middle_name : Option String
  status_code : String
  current_stage : String
  agent_id : Nat
  deadline : Option Nat
  created_at : Nat
  updated_at : Nat
  notes : Option String
  agent : Option AgentSummary
  status : Option StatusSummary
  stage : Option StageSummary
  phones : List PhoneOut
  passports : List PassportOut
  snils : List SnilsOut
deriving DecidableEq, Repr

/-- The phone entry dict of `_client_to_dict` (identical in the eager and the
fallback branch). -/
def phoneToDict (p : Phone) : PhoneOut :=
  { phone_id := p.phone_id
    client_id := p.client_id
    number := p.number
    created_at := p.created_at }

/-- The passport entry dict of `_client_to_dict`: only the eleven listed keys
are copied; `birth_date` and `department_code` are absent from the dict and
hence null in the serialized dossier. -/
def passportToDict (ps : Passport) : PassportOut :=
  { passport_id := ps.passport_id
    client_id := ps.client_id
    full_name := ps.full_name
    birth_date := none
    birth_place := ps.birth_place
    series_number := ps.series_number
    issued_by := ps.issued_by
    issue_date := ps.issue_date
    department_code := none
    expiry_date := ps.expiry_date
    registration_address := ps.registration_address
    version := ps.version
    created_at := ps.created_at }

/-- The snils entry dict of `_client_to_dict`. -/
def snilsToDict (s : Snils) : SnilsOut :=
  { snils_id := s.snils_id
    client_id := s.client_id
    number := s.number
    issued_date := s.issued_date
    version := s.version
    created_at := s.created_at }

/-- Which relationships of a Client instance are materialized when
`_client_to_dict` runs: `getattr(client, rel, None) is not None` holds
exactly for the materialized ones. -/
structure Loaded where
  phones : Bool
  agent : Bool
  passports : Bool
  snils : Bool
deriving DecidableEq, Repr

/-- All four relationships materialized (the selectinload options used by
get_client / list_clients). -/
def Loaded.all : Loaded := ⟨true, true, true, true⟩

/-- No relationship materialized: every branch of `_client_to_dict` takes its
fallback query. -/
def Loaded.nothing : Loaded := ⟨false, false, false, false⟩

/-- Rows of a materialized `client.phones` relationship: the PHONE rows of
this client, in store order (the relationship declares no order_by). -/
def eagerPhones (db : DB) (c : Client) : List Phone :=
  db.phones.filter (fun p => p.client_id == c.client_id)

/-- The fallback query of the phones branch:
`select(Phone).where(Phone.client_id == client.client_id).order_by(Phone.phone_id)`. -/
def queryPhones (db : DB) (c : Client) : List Phone :=
  List.insertionSort (fun a b => a.phone_id ≤ b.phone_id)
    (db.phones.filter (fun p => p.client_id == c.client_id))

/-- Rows of a materialized `client.passports` relationship (store order). -/
def eagerPassports (db : DB) (c : Client) : List Passport :=
  db.passports.filter (fun ps => ps.client_id == c.client_id)

/-- The fallback query of the passports branch:
`select(Passport).where(Passport.client_id == client.client_id)` — no
order_by, store order. -/
def queryPassports (db : DB) (c : Client) : List Passport :=
  db.passports.filter (fun ps => ps.client_id == c.client_id)

/-- Rows of a materialized `client.snils` relationship (store order). -/
def eagerSnils (db : DB) (c : Client) : List Snils :=
  db.snils.filter (fun s => s.client_id == c.client_id)

/-- The fallback query of the snils branch — no order_by, store order. -/
def querySnils (db : DB) (c : Client) : List Snils :=
  db.snils.filter (fun s => s.client_id == c.client_id)

/-- The agent resolution of `_client_to_dict`: take the materialized
`client.agent` if present, else (`client.agent_id` is a non-nullable column)
the point lookup `db.get(models.Agent, client.agent_id)`. -/
def agentObjOf (db : DB) (ld : Loaded) (c : Client) : Option Agent :=
  match (if ld.agent then findAgent db c.agent_id else none) with
  | some a => some a
  | none => findAgent db c.agent_id

/-- The status summary: built only when `client.status_code` is truthy (a
non-empty string) and the Status lookup finds a row. -/
def statusSummaryOf (db : DB) (c : Client) : Option StatusSummary :=
  if c.status_code ≠ "" then
    match getStatus db c.status_code with
    | some st => some { status_code := st.status_code, description := st.description }
    | none => none
  else none

/-- The stage summary: built only when `client.current_stage` is truthy and
the Stage lookup finds a row. -/
def stageSummaryOf (db : DB) (c : Client) : Option StageSummary :=
  if c.current_stage ≠ "" then
    match getStage db c.current_stage with
    | some sg => some { stage_code := sg.stage_code, description := sg.description }
    | none => none
  else none

/-- Embedding of `_client_to_dict(db, client)` of crud.py, parametrized by which
relationships of the instance are materialized. -/
def client_to_dict (db : DB) (ld : Loaded) (c : Client) : ClientDossier :=
  let phones := (if ld.phones then eagerPhones db c else queryPhones db c).map phoneToDict
  let agent_summary := (agentObjOf db ld c).map fun a =>
    { agent_id := a.agent_id
      external_id := a.external_id
      last_name := a.last_name
      first_name := a.first_name
      middle_name := a.middle_name : AgentSummary }
  let passports_list :=
    (if ld.passports then eagerPassports db c else queryPassports db c).map passportToDict
  let snils_list := (if ld.snils then eagerSnils db c else querySnils db c).map snilsToDict
  { client_id := c.client_id
    external_id := c.external_id
    last_name := c.last_name
    first_name := c.first_name
    middle_name := c.middle_name
    status_code := c.status_code
    current_stage := c.current_stage
    agent_id := c.agent_id
    deadline := c.deadline
    created_at := c.created_at
    updated_at := c.updated_at
    notes := c.notes
    agent := agent_summary
    status := statusSummaryOf db c
    stage := stageSummaryOf db c
    phones := phones
    passports := passports_list
    snils := snils_list }

/-- Embedding of `get_client`: select the Client by id with all four relationships
selectinload-ed, return its dossier, or None when absent. -/
def get_client (db : DB) (cid : Nat) : Option ClientDossier :=
  match db.clients.find? (fun c => c.client_id == cid) with
  | none => none
  | some c => some (client_to_dict db Loaded.all c)

/-- SQL LIKE matching on char lists (PostgreSQL semantics): `%` matches any
(possibly empty) sequence — rendered as: some split of the remaining text
lets the rest of the pattern match, i.e. the rest matches some suffix —
`_` matches any single character, the default escape character `\` makes the
next pattern character literal, everything else is literal.  Both sides are
lowercased by `ilike` before this runs. -/
def likeMatch : List Char → List Char → Bool
  | [], s => s.isEmpty
  | '%' :: ps, s => (List.range (s.length + 1)).any (fun n => likeMatch ps (s.drop n))
  | '\\' :: ps, s =>
    match ps, s with
    | d :: ps', e :: s' => d == e && likeMatch ps' s'
    | _, _ => false
  | '_' :: ps, s =>
    match s with
    | [] => false
    | _ :: s' => likeMatch ps s'
  | c :: ps, s =>
    match s with
    | [] => false
    | e :: s' => c == e && likeMatch ps s'

/-- Embedding of `column.ilike(pattern)`: case-insensitive LIKE — both operands
lowercased. -/
def ilike (s : String) (pat : String) : Bool :=
  likeMatch (pat.toList.map Char.toLower) (s.toList.map Char.toLower)

/-- The free-text condition of list_clients: with `like = f"%{q}%"`,
`or_(first_name.ilike(like), last_name.ilike(like), middle_name.ilike(like))`.
A NULL middle_name makes its disjunct unknown, hence not a match. -/
def likeQ (q : String) (c : Client) : Bool :=
  let pat := "%" ++ q ++ "%"
  ilike c.first_name pat || ilike c.last_name pat ||
    (match c.middle_name with
     | some m => ilike m pat
     | none => false)

/-- Python truthiness of an `Optional[str]` parameter: `if q:` — filter
applied only for a present, non-empty string. -/
def optStrTruthy : Option String → Bool
  | none => false
  | some s => !(s == "")

/-- The conjunction of conditions list_clients builds (`and_(*conditions)`);
each filter is added only when its parameter is truthy (for `agent_id`, a
UUID object is always truthy, so presence alone decides). -/
def listFilter (q status : Option String) (agent_id : Option Nat)
    (current_stage : Option String) (c : Client) : Bool :=
  (if optStrTruthy q then likeQ (q.getD "") c else true) &&
  (if optStrTruthy status then c.status_code == status.getD "" else true) &&
  (if agent_id.isSome then c.agent_id == agent_id.getD 0 else true) &&
  (if optStrTruthy current_stage then c.current_stage == current_stage.getD "" else true)

/-- Embedding of `list_clients`: filter, order by external_id, offset `skip`, limit
`limit`, and assemble each dossier with all relationships selectinload-ed. -/
def list_clients (db : DB) (skip limit : Nat) (q status : Option String)
    (agent_id : Option Nat) (current_stage : Option String) : List ClientDossier :=
  let filtered := db.clients.filter (listFilter q status agent_id current_stage)
  let sorted := List.insertionSort (fun a b => a.external_id ≤ b.external_id) filtered
  ((sorted.drop skip).take limit).map (client_to_dict db Loaded.all)

/-- Python `x or default` on an optional string: None and the empty string
both fall back to the default. -/
def pyOr (x : Option String) (d : String) : String :=
  match x with
  | none => d
  | some s => if s == "" then d else s

/-- Embedding of `schemas.ClientCreate` after validation: required names and codes, the
optional fields, and the optional list of phone numbers. -/
structure ClientCreateIn where
  last_name : String
  first_name : String
  middle_name : Option String
  status_code : String
  current_stage : String
  agent_id : Nat
  deadline : Option Nat
  notes : Option String
  phones : Option (List String)
deriving DecidableEq, Repr

/-- The Client row `models.Client(...)` built by create_client: the input
fields, with `middle_name or ""`, a fresh primary key from uuid4, the
sequence-issued external id, and server-assigned timestamps. -/
def newClientRow (db : DB) (inp : ClientCreateIn) : Client :=
  { client_id := db.uuidSeq
    external_id := db.clientSeq
    last_name := inp.last_name
    first_name := inp.first_name
    middle_name := some (pyOr inp.middle_name "")
    status_code := inp.status_code
    current_stage := inp.current_stage
    agent_id := inp.agent_id
    deadline := inp.deadline
    created_at := db.now
    updated_at := db.now
    notes := inp.notes }

/-- Embedding of `create_client`: precheck `db.get(Agent, agent_id)` — ValueError
(ReferenceNotFound) when absent; otherwise insert the Client row (flush
assigns client_id and the sequence-issued external_id), insert one Phone row
per input number, and commit; an IntegrityError at flush/commit (a
status/stage foreign key without a lookup row) rolls the transaction back,
so the error branches return the input store unchanged. -/
def create_client (db : DB) (inp : ClientCreateIn) :
    DB × Except CrudErr ClientDossier :=
  match findAgent db inp.agent_id with
  | none => (db, .error .referenceNotFound)
  | some _ =>
    let cid := db.uuidSeq
    let c := newClientRow db inp
    let nums := inp.phones.getD []
    let newPhones := nums.enum.map fun pr =>
      { phone_id := db.phoneSeq + pr.1
        client_id := cid
        number := pr.2
        created_at := db.now : Phone }
    if (getStatus db inp.status_code).isSome && (getStage db inp.current_stage).isSome then
      let db' := { db with
        clients := db.clients ++ [c]
        phones := db.phones ++ newPhones
        uuidSeq := db.uuidSeq + 1
        clientSeq := db.clientSeq + 1
        phoneSeq := db.phoneSeq + nums.length }
      (db', .ok (client_to_dict db' Loaded.all c))
    else
      (db, .error .storageError)

/-- One entry of the PATCH payload reaching `update_client`: the API layer
dumps `schemas.ClientUpdate` with exclude_unset, so a key is present exactly
when the caller supplied it.  `unknown` stands for any key that is not an
attribute of the Client model: the `hasattr` guard skips it.  (The `phones`
key of ClientUpdate is outside this embedding: assigning a list of dicts to
the relationship is not a column update.) -/
inductive ClientPatch where
  | last_name (v : String)
  | first_name (v : String)
  | middle_name (v : Option String)
  | status_code (v : String)
  | current_stage (v : String)
  | agent_id (v : Nat)
  | deadline (v : Option Nat)
  | notes (v : Option String)
  | unknown (key : String)
deriving DecidableEq, Repr

/-- The updatable Client columns, used to talk about which fields a payload
names. -/
inductive ClientField where
  | last_name
  | first_name
  | middle_name
  | status_code
  | current_stage
  | agent_id
  | deadline
  | notes
deriving DecidableEq, Repr

/-- The column a payload entry names (none for an unknown key). -/
def ClientPatch.fieldOf : ClientPatch → Option ClientField
  | .last_name _ => some .last_name
  | .first_name _ => some .first_name
  | .middle_name _ => some .middle_name
  | .status_code _ => some .status_code
  | .current_stage _ => some .current_stage
  | .agent_id _ => some .agent_id
  | .deadline _ => some .deadline
  | .notes _ => some .notes
  | .unknown _ => none

/-- Embedding of `setattr(client, k, v)` for one payload entry; an unknown key is skipped
by the `hasattr` guard. -/
def setClientField (c : Client) : ClientPatch → Client
  | .last_name v => { c with last_name := v }
  | .first_name v => { c with first_name := v }
  | .middle_name v => { c with middle_name := v }
  | .status_code v => { c with status_code := v }
  | .current_stage v => { c with current_stage := v }
  | .agent_id v => { c with agent_id := v }
  | .deadline v => { c with deadline := v }
  | .notes v => { c with notes := v }
  | .unknown _ => c

/-- The `for k, v in payload.items(): if hasattr(client, k): setattr(...)`
loop. -/
def applyClientPatch (c : Client) (p : List ClientPatch) : Client :=
  p.foldl setClientField c

/-- Projection equality of one updatable column between two Client rows. -/
def clientFieldEq (a b : Client) : ClientField → Prop
  | .last_name => a.last_name = b.last_name
  | .first_name => a.first_name = b.first_name
  | .middle_name => a.middle_name = b.middle_name
  | .status_code => a.status_code = b.status_code
  | .current_stage => a.current_stage = b.current_stage
  | .agent_id => a.agent_id = b.agent_id
  | .deadline => a.deadline = b.deadline
  | .notes => a.notes = b.notes

/-- Embedding of `update_client`: None when the id is absent (`.ok none`); otherwise apply
the payload, commit (the `onupdate=func.now()` of updated_at fires with the
UPDATE when some column was assigned), and return the refreshed dossier; an
IntegrityError at commit (a reassigned agent/status/stage key without a
matching row) rolls back, leaving the store unchanged.
`clientAfterPatch` is the row as committed: the merge-patched client, with
the server-maintained updated timestamp refreshed by the UPDATE when some
column was assigned. -/
def clientAfterPatch (db : DB) (c : Client) (p : List ClientPatch) : Client :=
  let c1 := applyClientPatch c p
  if p.any (fun pf => pf.fieldOf.isSome) then { c1 with updated_at := db.now } else c1

def update_client (db : DB) (cid : Nat) (p : List ClientPatch) :
    DB × Except CrudErr (Option ClientDossier) :=
  match findClient db cid with
  | none => (db, .ok none)
  | some c =>
    let c2 := clientAfterPatch db c p
    if (findAgent db c2.agent_id).isSome && (getStatus db c2.status_code).isSome
        && (getStage db c2.current_stage).isSome then
      let db' := { db with clients := db.clients.map fun x => if x.client_id == cid then c2 else x }
      (db', .ok (some (client_to_dict db' Loaded.all c2)))
    else
      (db, .error .storageError)

/-- Embedding of `delete_client`: False when absent; otherwise delete the Client row —
the delete-orphan cascade of the phones/passports/snils/documents/reminders
relationships (ondelete=CASCADE on every owned table) removes every owned
row with it. -/
def delete_client (db : DB) (cid : Nat) : DB × Bool :=
  match findClient db cid with
  | none => (db, false)
  | some _ =>
    ({ db with
        clients := db.clients.filter (fun c => !(c.client_id == cid))
        phones := db.phones.filter (fun p => !(p.client_id == cid))
        passports := db.passports.filter (fun ps => !(ps.client_id == cid))
        snils := db.snils.filter (fun s => !(s.client_id == cid))
        documents := db.documents.filter (fun d => !(d.client_id == cid))
        reminders := db.reminders.filter (fun r => !(r.client_id == cid)) },
      true)

/-- Embedding of `schemas.AgentCreate` after validation. -/
structure AgentCreateIn where
  last_name : String
  first_name : Option String
  middle_name : Option String
  legal_address : String
  actual_address : String
  inn : String
  ogrnip : String
  account_number : String
  correspondent_account : Option String
  bic : String
deriving DecidableEq, Repr

/-- The Agent row `models.Agent(...)` built by create_agent: correspondent
account defaults to the account number when falsy
(`correspondent_account or account_number`), absent first/middle names are
normalized to the empty string, the external id is sequence-issued at
flush. -/
def newAgentRow (db : DB) (inp : AgentCreateIn) : Agent :=
  { agent_id := db.uuidSeq
    external_id := db.agentSeq
    last_name := inp.last_name
    first_name := pyOr inp.first_name ""
    middle_name := some (pyOr inp.middle_name "")
    legal_address := inp.legal_address
    actual_address := inp.actual_address
    inn := inp.inn
    ogrnip := inp.ogrnip
    account_number := inp.account_number
    correspondent_account := pyOr inp.correspondent_account inp.account_number
    bic := inp.bic }

/-- Embedding of `create_agent`: insert the row built by `newAgentRow` and commit.
`_agent_to_dict` copies the row field for field, so the inserted row is the
returned record. -/
def create_agent (db : DB) (inp : AgentCreateIn) : DB × Agent :=
  let a := newAgentRow db inp
  ({ db with
      agents := db.agents ++ [a]
      uuidSeq := db.uuidSeq + 1
      agentSeq := db.agentSeq + 1 },
    a)

/-- One entry of the PATCH payload reaching `update_agent`
(`schemas.AgentUpdate` has no external_id field, so no payload can name
it). -/
inductive AgentPatch where
  | last_name (v : String)
  | first_name (v : String)
  | middle_name (v : Option String)
  | legal_address (v : String)
  | actual_address (v : String)
  | inn (v : String)
  | ogrnip (v : String)
  | account_number (v : String)
  | correspondent_account (v : String)
  | bic (v : String)
  | unknown (key : String)
deriving DecidableEq, Repr

/-- Embedding of `setattr(agent, k, v)` for one payload entry, with the `hasattr` guard
skipping unknown keys. -/
def setAgentField (a : Agent) : AgentPatch → Agent
  | .last_name v => { a with last_name := v }
  | .first_name v => { a with first_name := v }
  | .middle_name v => { a with middle_name := v }
  | .legal_address v => { a with legal_address := v }
  | .actual_address v => { a with actual_address := v }
  | .inn v => { a with inn := v }
  | .ogrnip v => { a with ogrnip := v }
  | .account_number v => { a with account_number := v }
  | .correspondent_account v => { a with correspondent_account := v }
  | .bic v => { a with bic := v }
  | .unknown _ => a

/-- The payload loop of `update_agent`. -/
def applyAgentPatch (a : Agent) (p : List AgentPatch) : Agent :=
  p.foldl setAgentField a

/-- Embedding of `update_agent`: None when absent, else merge-patch and commit. -/
def update_agent (db : DB) (aid : Nat) (p : List AgentPatch) : DB × Option Agent :=
  match findAgent db aid with
  | none => (db, none)
  | some a =>
    let a' := applyAgentPatch a p
    ({ db with agents := db.agents.map fun x => if x.agent_id == aid then a' else x },
      some a')

/-- Embedding of `delete_agent`: False when absent; a ValueError (ConflictError) when the
count of Clients referencing the agent is positive — the transaction is
never started, nothing changes; else delete the row. -/
def delete_agent (db : DB) (aid : Nat) : DB × Except CrudErr Bool :=
  match findAgent db aid with
  | none => (db, .ok false)
  | some _ =>
    if (db.clients.filter (fun c => c.agent_id == aid)).length > 0 then
      (db, .error .conflict)
    else
      ({ db with agents := db.agents.filter (fun a => !(a.agent_id == aid)) }, .ok true)

/-- Embedding of `add_phone`: ValueError (ReferenceNotFound) when the Client is absent,
else insert the Phone row. -/
def add_phone (db : DB) (cid : Nat) (number : String) : DB × Except CrudErr Phone :=
  match findClient db cid with
  | none => (db, .error .referenceNotFound)
  | some _ =>
    let ph : Phone :=
      { phone_id := db.phoneSeq, client_id := cid, number := number, created_at := db.now }
    ({ db with phones := db.phones ++ [ph], phoneSeq := db.phoneSeq + 1 }, .ok ph)

/-- Embedding of `delete_phone`: False when absent, else delete the row. -/
def delete_phone (db : DB) (pid : Nat) : DB × Bool :=
  match db.phones.find? (fun p => p.phone_id == pid) with
  | none => (db, false)
  | some _ =>
    ({ db with phones := db.phones.filter (fun p => !(p.phone_id == pid)) }, true)

/-- Embedding of `schemas.PassportCreate`. -/
structure PassportCreateIn where
  full_name : String
  birth_date : Option Nat
  birth_place : String
  series_number : String
  issued_by : String
  issue_date : Nat
  department_code : Option String
  expiry_date : Option Nat
  registration_address : String
deriving DecidableEq, Repr

/-- Embedding of `create_passport`: ValueError (ReferenceNotFound) when the Client is
absent, else insert `Passport(client_id=..., **passport_in.model_dump())`
with the version counter defaulting to 1. -/
def create_passport (db : DB) (cid : Nat) (inp : PassportCreateIn) :
    DB × Except CrudErr Passport :=
  match findClient db cid with
  | none => (db, .error .referenceNotFound)
  | some _ =>
    let ps : Passport :=
      { passport_id := db.uuidSeq
        client_id := cid
        full_name := inp.full_name
        birth_date := inp.birth_date
        birth_place := inp.birth_place
        series_number := inp.series_number
        issued_by := inp.issued_by
        issue_date := inp.issue_date
        department_code := inp.department_code
        expiry_date := inp.expiry_date
        registration_address := inp.registration_address
        version := 1
        created_at := db.now }
    ({ db with passports := db.passports ++ [ps], uuidSeq := db.uuidSeq + 1 }, .ok ps)

/-- One entry of an update_passport payload (`schemas.PassportUpdate`); the
crud loop setattrs every key, a non-column key only creates an instance
attribute the commit ignores. -/
inductive PassportPatch where
  | full_name (v : String)
  | birth_date (v : Option Nat)
  | birth_place (v : String)
  | series_number (v : String)
  | issued_by (v : String)
  | issue_date (v : Nat)
  | department_code (v : Option String)
  | expiry_date (v : Option Nat)
  | registration_address (v : String)
  | unknown (key : String)
deriving DecidableEq, Repr

/-- Embedding of `setattr(passport, key, value)` for one entry. -/
def setPassportField (ps : Passport) : PassportPatch → Passport
  | .full_name v => { ps with full_name := v }
  | .birth_date v => { ps with birth_date := v }
  | .birth_place v => { ps with birth_place := v }
  | .series_number v => { ps with series_number := v }
  | .issued_by v => { ps with issued_by := v }
  | .issue_date v => { ps with issue_date := v }
  | .department_code v => { ps with department_code := v }
  | .expiry_date v => { ps with expiry_date := v }
  | .registration_address v => { ps with registration_address := v }
  | .unknown _ => ps

/-- Embedding of `update_passport`: None when absent, else merge-patch and commit. -/
def update_passport (db : DB) (pid : Nat) (p : List PassportPatch) :
    DB × Option Passport :=
  match db.passports.find? (fun ps => ps.passport_id == pid) with
  | none => (db, none)
  | some ps =>
    let ps' := p.foldl setPassportField ps
    ({ db with passports := db.passports.map fun x => if x.passport_id == pid then ps' else x },
      some ps')

/-- Embedding of `schemas.SnilsCreate`. -/
structure SnilsCreateIn where
  number : String
  issued_date : Option Nat
deriving DecidableEq, Repr

/-- Embedding of `create_snils`: ValueError (ReferenceNotFound) when the Client is absent,
else insert the row with version 1. -/
def create_snils (db : DB) (cid : Nat) (inp : SnilsCreateIn) :
    DB × Except CrudErr Snils :=
  match findClient db cid with
  | none => (db, .error .referenceNotFound)
  | some _ =>
    let s : Snils :=
      { snils_id := db.uuidSeq
        client_id := cid
        number := inp.number
        issued_date := inp.issued_date
        version := 1
        created_at := db.now }
    ({ db with snils := db.snils ++ [s], uuidSeq := db.uuidSeq + 1 }, .ok s)

/-- One entry of an update_snils payload (`schemas.SnilsUpdate`). -/
inductive SnilsPatch where
  | number (v : String)
  | issued_date (v : Option Nat)
  | unknown (key : String)
deriving DecidableEq, Repr

/-- Embedding of `setattr(snils, key, value)` for one entry. -/
def setSnilsField (s : Snils) : SnilsPatch → Snils
  | .number v => { s with number := v }
  | .issued_date v => { s with issued_date := v }
  | .unknown _ => s

/-- Embedding of `update_snils`: None when absent, else merge-patch and commit. -/
def update_snils (db : DB) (sid : Nat) (p : List SnilsPatch) : DB × Option Snils :=
  match db.snils.find? (fun s => s.snils_id == sid) with
  | none => (db, none)
  | some s =>
    let s' := p.foldl setSnilsField s
    ({ db with snils := db.snils.map fun x => if x.snils_id == sid then s' else x },
      some s')

/-- Embedding of `create_status`: inserting a duplicate primary key fails at commit
(IntegrityError → rollback and re-raise, a ConflictError). -/
def create_status (db : DB) (code descr : String) : DB × Except CrudErr Status :=
  if (getStatus db code).isSome then
    (db, .error .conflict)
  else
    let st : Status := { status_code := code, description := descr }
    ({ db with statuses := db.statuses ++ [st] }, .ok st)

/-- Embedding of `create_stage`: as create_status, on the STAGE table. -/
def create_stage (db : DB) (code descr : String) : DB × Except CrudErr Stage :=
  if (getStage db code).isSome then
    (db, .error .conflict)
  else
    let sg : Stage := { stage_code := code, description := descr }
    ({ db with stages := db.stages ++ [sg] }, .ok sg)

/-- Largest external_id present among the AGENT rows (0 when none). -/
def maxAgentExternal (l : List Agent) : Nat :=
  l.foldr (fun a m => max a.external_id m) 0

/-- Largest external_id present among the CLIENT rows (0 when none). -/
def maxClientExternal (l : List Client) : Nat :=
  l.foldr (fun c m => max c.external_id m) 0

/-- Step 3 of migration ff8fddb0819d:
`setval(seq, COALESCE(MAX(external_id), 0) + 1, false)` for both sequences —
the next issued value is max(existing) + 1. -/
def bootstrapSeqs (db : DB) : DB :=
  { db with
      agentSeq := maxAgentExternal db.agents + 1
      clientSeq := maxClientExternal db.clients + 1 }

/-- The mutating operations of the crud layer, for stating store-wide
invariants. -/
inductive Op where
  | createClient (inp : ClientCreateIn)
  | updateClient (cid : Nat) (p : List ClientPatch)
  | deleteClient (cid : Nat)
  | createAgent (inp : AgentCreateIn)
  | updateAgent (aid : Nat) (p : List AgentPatch)
  | deleteAgent (aid : Nat)
  | addPhone (cid : Nat) (number : String)
  | deletePhone (pid : Nat)
  | createPassport (cid : Nat) (inp : PassportCreateIn)
  | updatePassport (pid : Nat) (p : List PassportPatch)
  | createSnils (cid : Nat) (inp : SnilsCreateIn)
  | updateSnils (sid : Nat) (p : List SnilsPatch)
  | createStatus (code descr : String)
  | createStage (code descr : String)
deriving DecidableEq, Repr

/-- The store after one crud operation (its transaction committed or rolled
back). -/
def step (db : DB) : Op → DB
  | .createClient inp => (create_client db inp).1
  | .updateClient cid p => (update_client db cid p).1
  | .deleteClient cid => (delete_client db cid).1
  | .createAgent inp => (create_agent db inp).1
  | .updateAgent aid p => (update_agent db aid p).1
  | .deleteAgent aid => (delete_agent db aid).1
  | .addPhone cid number => (add_phone db cid number).1
  | .deletePhone pid => (delete_phone db pid).1
  | .createPassport cid inp => (create_passport db cid inp).1
  | .updatePassport pid p => (update_passport db pid p).1
  | .createSnils cid inp => (create_snils db cid inp).1
  | .updateSnils sid p => (update_snils db sid p).1
  | .createStatus code descr => (create_status db code descr).1
  | .createStage code descr => (create_stage db code descr).1

/-- Case-insensitive substring: the lowercased characters of `q` occur
contiguously inside the lowercased characters of `s` (what the spec calls a
free-text substring match). -/
def ciSub (q s : String) : Prop :=
  (q.toList.map Char.toLower) <:+: (s.toList.map Char.toLower)

/-- Store-wide well-formedness of the identifier generators: every issued
external id is below its sequence, every primary key is below the fresh-id
counter, and both are pairwise distinct among AGENT rows. -/
def agentsOk (db : DB) : Prop :=
  (∀ a ∈ db.agents, a.external_id < db.agentSeq ∧ a.agent_id < db.uuidSeq) ∧
  db.agents.Pairwise (fun a b => a.external_id ≠ b.external_id) ∧
  db.agents.Pairwise (fun a b => a.agent_id ≠ b.agent_id)

/-- As `agentsOk`, for the CLIENT rows and the client sequence. -/
def clientsOk (db : DB) : Prop :=
  (∀ c ∈ db.clients, c.external_id < db.clientSeq ∧ c.client_id < db.uuidSeq) ∧
  db.clients.Pairwise (fun a b => a.external_id ≠ b.external_id) ∧
  db.clients.Pairwise (fun a b => a.client_id ≠ b.client_id)

/-- The external-id issuance invariant of §4.1 over the whole store. -/
def eidInv (db : DB) : Prop :=
  agentsOk db ∧ clientsOk db

/-- The per-operation external-id contract between a store and its
successor: the invariant is preserved, surviving rows keep their external
id, and a row under a fresh primary key carries an external id strictly
greater than every pre-existing one of its entity type. -/
def StepContract (db db' : DB) : Prop :=
  eidInv db' ∧
  (∀ a ∈ db.agents, ∀ a' ∈ db'.agents,
      a'.agent_id = a.agent_id → a'.external_id = a.external_id) ∧
  (∀ a' ∈ db'.agents, (∀ a ∈ db.agents, a.agent_id ≠ a'.agent_id) →
      ∀ a ∈ db.agents, a.external_id < a'.external_id) ∧
  (∀ c ∈ db.clients, ∀ c' ∈ db'.clients,
      c'.client_id = c.client_id → c'.external_id = c.external_id) ∧
  (∀ c' ∈ db'.clients, (∀ c ∈ db.clients, c.client_id ≠ c'.client_id) →
      ∀ c ∈ db.clients, c.external_id < c'.external_id)

/-! Concrete fixtures used by witnesses and counterexamples. -/

/-- A stored agent (external id 1). -/
def agent0 : Agent :=
  { agent_id := 1
    external_id := 1
    last_name := "Smith"
    first_name := "Jane"
    middle_name := some ""
    legal_address := "A"
    actual_address := "A"
    inn := "1234567890"
    ogrnip := "123456789012345"
    account_number := "12345678901234567890"
    correspondent_account := "12345678901234567890"
    bic := "123456789" }

/-- A stored client owned by `agent0`. -/
def client0 : Client :=
  { client_id := 2
    external_id := 1
    last_name := "Brown"
    first_name := "Ann"
    middle_name := some ""
    status_code := "new"
    current_stage := "s1"
    agent_id := 1
    deadline := none
    created_at := 5
    updated_at := 5
    notes := none }

/-- A small consistent store: one agent, one client with one phone, seeded
status and stage lookups. -/
def db0 : DB :=
  { agents := [agent0]
    clients := [client0]
    phones := [{ phone_id := 1, client_id := 2, number := "+1000", created_at := 5 }]
    passports := []
    snils := []
    documents := []
    reminders := []
    statuses := [{ status_code := "new", description := "New case" }]
    stages := [{ stage_code := "s1", description := "Stage one" }]
    agentSeq := 2
    clientSeq := 2
    phoneSeq := 2
    uuidSeq := 10
    now := 100 }

/-- A creation input naming a nonexistent agent id. -/
def inpBadAgent : ClientCreateIn :=
  { last_name := "Roe"
    first_name := "Bob"
    middle_name := none
    status_code := "new"
    current_stage := "s1"
    agent_id := 99
    deadline := none
    notes := none
    phones := some ["+1", "+2"] }

/-- A valid creation input without a middle name. -/
def inpOkClient : ClientCreateIn :=
  { last_name := "Roe"
    first_name := "Bob"
    middle_name := none
    status_code := "new"
    current_stage := "s1"
    agent_id := 1
    deadline := none
    notes := none
    phones := some ["+1"] }

/-- An agent creation input without first and middle names. -/
def inpOkAgent : AgentCreateIn :=
  { last_name := "Poe"
    first_name := none
    middle_name := none
    legal_address := "L"
    actual_address := "L"
    inn := "0123456789"
    ogrnip := "012345678901234"
    account_number := "01234567890123456789"
    correspondent_account := none
    bic := "012345678" }

/-- A client whose status code is the empty string. -/
def clientBlank : Client :=
  { client_id := 1
    external_id := 1
    last_name := "N"
    first_name := "F"
    middle_name := none
    status_code := ""
    current_stage := "s1"
    agent_id := 1
    deadline := none
    created_at := 0
    updated_at := 0
    notes := none }

/-- A store whose STATUS table contains a row keyed by the empty string,
referenced by `clientBlank`. -/
def dbBlank : DB :=
  { agents := []
    clients := [clientBlank]
    phones := []
    passports := []
    snils := []
    documents := []
    reminders := []
    statuses := [{ status_code := "", description := "Blank" }]
    stages := [{ stage_code := "s1", description := "Stage one" }]
    agentSeq := 1
    clientSeq := 2
    phoneSeq := 1
    uuidSeq := 5
    now := 9 }

/-- A client whose last name is the two characters x y. -/
def clientXY : Client :=
  { client_id := 3
    external_id := 1
    last_name := "xy"
    first_name := "a"
    middle_name := some ""
    status_code := "new"
    current_stage := "s1"
    agent_id := 1
    deadline := none
    created_at := 0
    updated_at := 0
    notes := none }

/-- A store holding only `clientXY`, for the free-text filter
counterexample. -/
def dbXY : DB :=
  { agents := [agent0]
    clients := [clientXY]
    phones := []
    passports := []
    snils := []
    documents := []
    reminders := []
    statuses := [{ status_code := "new", description := "New case" }]
    stages := [{ stage_code := "s1", description := "Stage one" }]
    agentSeq := 2
    clientSeq := 2
    phoneSeq := 1
    uuidSeq := 10
    now := 0 }

/-- A passport input that supplies the optional birth date and department
code. -/
def passIn0 : PassportCreateIn :=
  { full_name := "Ann Brown"
    birth_date := some 7
    birth_place := "Town"
    series_number := "11 22"
    issued_by := "Dept"
    issue_date := 3
    department_code := some "123-456"
    expiry_date := none
    registration_address := "Addr" }

/-! Theorems. -/

/-- Claim C1: create_client fails with ReferenceNotFound when the agent id
does not exist, every failure of the operation leaves the store exactly as
it was (no Client row and no Phone row persisted), and on success the
Client row and all its Phone rows are committed together. -/
theorem create_client_atomicity (db : DB) (inp : ClientCreateIn) :
    (findAgent db inp.agent_id = none →
      create_client db inp = (db, Except.error CrudErr.referenceNotFound)) ∧
    (∀ db' e, create_client db inp = (db', Except.error e) → db' = db) ∧
    (∀ db' d, create_client db inp = (db', Except.ok d) →
      ∃ c nps, db'.clients = db.clients ++ [c] ∧ db'.phones = db.phones ++ nps ∧
        nps.length = (inp.phones.getD []).length ∧
        ∀ ph ∈ nps, ph.client_id = c.client_id) := by
  refine ⟨?_, ?_, ?_⟩
  · intro h
    simp [create_client, h]
  · intro db' e h
    unfold create_client at h
    split at h
    · injection h with h1 h2
      exact h1.symm
    · split at h
      · injection h with h1 h2
        exact Except.noConfusion h2
      · injection h with h1 h2
        exact h1.symm
  · intro db' d h
    unfold create_client at h
    split at h
    · injection h with h1 h2
      exact Except.noConfusion h2
    · split at h
      · injection h with h1 h2
        subst h1
        refine ⟨_, _, rfl, rfl, by simp, ?_⟩
        intro ph hph
        simp only [List.mem_map] at hph
        obtain ⟨pr, _, hpr⟩ := hph
        rw [← hpr]
        rfl
      · injection h with h1 h2
        exact Except.noConfusion h2

/-- Witness for C1 at a concrete store: the creation input names agent 99,
which does not exist in db0. -/
theorem create_client_atomicity_witness :
    create_client db0 inpBadAgent = (db0, Except.error CrudErr.referenceNotFound) :=
  (create_client_atomicity db0 inpBadAgent).1 (by decide)

/-- Claim C4: delete_agent on an existing agent referenced by at least one
Client fails with ConflictError and returns the store unchanged — the Agent
row and every Client row are exactly as before, never a cascade. -/
theorem delete_agent_restrict (db : DB) (aid : Nat)
    (hex : (findAgent db aid).isSome = true)
    (hdep : ∃ c ∈ db.clients, c.agent_id = aid) :
    delete_agent db aid = (db, Except.error CrudErr.conflict) := by
  obtain ⟨a, ha⟩ := Option.isSome_iff_exists.mp hex
  have hpos : 0 < (db.clients.filter (fun c => c.agent_id == aid)).length := by
    obtain ⟨c, hc, hca⟩ := hdep
    have hm : c ∈ db.clients.filter (fun c => c.agent_id == aid) :=
      List.mem_filter.mpr ⟨hc, by simp [hca]⟩
    exact List.length_pos.mpr (List.ne_nil_of_mem hm)
  simp [delete_agent, ha, hpos]

/-- Witness for C4: agent 1 of db0 is referenced by client0. -/
theorem delete_agent_restrict_witness :
    delete_agent db0 1 = (db0, Except.error CrudErr.conflict) :=
  delete_agent_restrict db0 1 (by decide) (by decide)

/-- Claim C5: delete_client on an existing Client removes the Client and
every owned Phone, Passport, Snils record, Document and Reminder — no row of
any owned table still references the deleted id — while a nonexistent id
reports absence and changes nothing. -/
theorem delete_client_cascade (db : DB) (cid : Nat) :
    ((findClient db cid).isSome = true →
      (delete_client db cid).2 = true ∧
      (∀ c ∈ (delete_client db cid).1.clients, c.client_id ≠ cid) ∧
      (∀ p ∈ (delete_client db cid).1.phones, p.client_id ≠ cid) ∧
      (∀ ps ∈ (delete_client db cid).1.passports, ps.client_id ≠ cid) ∧
      (∀ s ∈ (delete_client db cid).1.snils, s.client_id ≠ cid) ∧
      (∀ d ∈ (delete_client db cid).1.documents, d.client_id ≠ cid) ∧
      (∀ r ∈ (delete_client db cid).1.reminders, r.client_id ≠ cid)) ∧
    (findClient db cid = none → delete_client db cid = (db, false)) := by
  constructor
  · intro hex
    obtain ⟨c, hc⟩ := Option.isSome_iff_exists.mp hex
    simp only [delete_client, hc]
    refine ⟨by trivial, ?_, ?_, ?_, ?_, ?_, ?_⟩ <;>
      · intro x hx
        have hx2 := (List.mem_filter.mp hx).2
        simpa using hx2
  · intro h
    simp [delete_client, h]

/-- Witness for C5: deleting client 2 of db0 succeeds and leaves no phone
row referencing it. -/
theorem delete_client_cascade_witness :
    (delete_client db0 2).2 = true ∧
    ∀ p ∈ (delete_client db0 2).1.phones, p.client_id ≠ 2 :=
  ⟨((delete_client_cascade db0 2).1 (by decide)).1,
    ((delete_client_cascade db0 2).1 (by decide)).2.2.1⟩

/-- Claim C10: create_client normalizes an absent or null middle name to the
empty string — stored as the empty string, returned as the empty string in
the creation dossier and in a subsequent get_client dossier (given the new
primary key is fresh, which uuid4 issuance provides) — and create_agent
likewise normalizes absent first and middle names. -/
theorem create_normalizes_names (db : DB) (inp : ClientCreateIn) (inp2 : AgentCreateIn)
    (hag : (findAgent db inp.agent_id).isSome = true)
    (hst : (getStatus db inp.status_code).isSome = true)
    (hsg : (getStage db inp.current_stage).isSome = true)
    (hmid : inp.middle_name = none ∨ inp.middle_name = some "") :
    ((create_client db inp).2.map (fun d => d.middle_name) = Except.ok (some "")) ∧
    (∃ c ∈ (create_client db inp).1.clients, c.client_id = db.uuidSeq ∧ c.middle_name = some "") ∧
    ((∀ c ∈ db.clients, c.client_id ≠ db.uuidSeq) →
      (get_client (create_client db inp).1 db.uuidSeq).map (fun x => x.middle_name)
        = some (some "")) ∧
    ((inp2.first_name = none ∨ inp2.first_name = some "") →
      (create_agent db inp2).2.first_name = "" ∧
      ∃ a ∈ (create_agent db inp2).1.agents,
        a.agent_id = (create_agent db inp2).2.agent_id ∧ a.first_name = "") ∧
    ((inp2.middle_name = none ∨ inp2.middle_name = some "") →
      (create_agent db inp2).2.middle_name = some "") := by
  obtain ⟨a, ha⟩ := Option.isSome_iff_exists.mp hag
  have hnorm : pyOr inp.middle_name "" = "" := by
    rcases hmid with h1 | h1 <;> simp [h1, pyOr]
  have hcond : ((getStatus db inp.status_code).isSome
      && (getStage db inp.current_stage).isSome) = true := by
    rw [hst, hsg]; rfl
  refine ⟨?_, ?_, ?_, ?_, ?_⟩
  · simp [create_client, ha, hcond, client_to_dict, newClientRow, hnorm, Except.map]
  · refine ⟨newClientRow db inp, ?_, rfl, by simp [newClientRow, hnorm]⟩
    simp only [create_client, ha, hcond, if_true]
    exact List.mem_append.mpr (Or.inr (List.mem_singleton.mpr rfl))
  · intro hfresh
    have hnone : db.clients.find? (fun c => c.client_id == db.uuidSeq) = none := by
      rw [List.find?_eq_none]
      intro x hx
      simpa using hfresh x hx
    simp only [create_client, ha, hcond, if_true, get_client, List.find?_append, hnone,
      Option.none_or]
    simp [client_to_dict, List.find?_cons, newClientRow, hnorm]
  · intro hfn
    have hnorm2 : pyOr inp2.first_name "" = "" := by
      rcases hfn with h1 | h1 <;> simp [h1, pyOr]
    refine ⟨by simp [create_agent, newAgentRow, hnorm2], newAgentRow db inp2, ?_, rfl,
      by simp [newAgentRow, hnorm2]⟩
    simp only [create_agent]
    exact List.mem_append.mpr (Or.inr (List.mem_singleton.mpr rfl))
  · intro hmn
    have hnorm3 : pyOr inp2.middle_name "" = "" := by
      rcases hmn with h1 | h1 <;> simp [h1, pyOr]
    simp [create_agent, newAgentRow, hnorm3]

/-- Witness for C10: creating client and agent rows without the optional
names in db0 stores and returns empty strings. -/
theorem create_normalizes_names_witness :
    ((create_client db0 inpOkClient).2.map (fun d => d.middle_name) = Except.ok (some "")) ∧
    (create_agent db0 inpOkAgent).2.first_name = "" ∧
    (create_agent db0 inpOkAgent).2.middle_name = some "" := by
  have h := create_normalizes_names db0 inpOkClient inpOkAgent (by decide) (by decide)
    (by decide) (Or.inl rfl)
  exact ⟨h.1, (h.2.2.2.1 (Or.inl rfl)).1, h.2.2.2.2 (Or.inl rfl)⟩

/-- Counterexample to claim C9 as stated: the STATUS table of dbBlank holds
a row whose code is the empty string and clientBlank references it, yet the
dossier omits the status summary, because the truthiness guard
`if client.status_code:` skips the lookup for an empty code. -/
theorem status_summary_empty_code_counterexample :
    getStatus dbBlank clientBlank.status_code
      = some { status_code := "", description := "Blank" } ∧
    (client_to_dict dbBlank Loaded.all clientBlank).status = none := by
  exact ⟨rfl, rfl⟩

/-- Claim C9 (amended): when the status (stage) code has no matching lookup
row, dossier assembly succeeds with the summary omitted; when a matching row
exists and the code is non-empty, the summary carries that row's code and
description. -/
theorem status_stage_summary_lookup (db : DB) (ld : Loaded) (c : Client) :
    (getStatus db c.status_code = none → (client_to_dict db ld c).status = none) ∧
    (c.status_code ≠ "" → ∀ st, getStatus db c.status_code = some st →
      (client_to_dict db ld c).status
        = some { status_code := st.status_code, description := st.description }) ∧
    (getStage db c.current_stage = none → (client_to_dict db ld c).stage = none) ∧
    (c.current_stage ≠ "" → ∀ sg, getStage db c.current_stage = some sg →
      (client_to_dict db ld c).stage
        = some { stage_code := sg.stage_code, description := sg.description }) := by
  refine ⟨?_, ?_, ?_, ?_⟩
  · intro h
    by_cases hb : c.status_code = "" <;> simp [client_to_dict, statusSummaryOf, h, hb]
  · intro hne st h
    simp [client_to_dict, statusSummaryOf, hne, h]
  · intro h
    by_cases hb : c.current_stage = "" <;> simp [client_to_dict, stageSummaryOf, h, hb]
  · intro hne sg h
    simp [client_to_dict, stageSummaryOf, hne, h]

/-- Witness for C9's amended theorem: client0's codes resolve in db0's
lookup tables. -/
theorem status_stage_summary_lookup_witness :
    (client_to_dict db0 Loaded.all client0).status
      = some { status_code := "new", description := "New case" } ∧
    (client_to_dict db0 Loaded.all client0).stage
      = some { stage_code := "s1", description := "Stage one" } :=
  ⟨(status_stage_summary_lookup db0 Loaded.all client0).2.1 (by decide) _ rfl,
    ((status_stage_summary_lookup db0 Loaded.all client0).2.2.2 (by decide) _ rfl)⟩

/-- The agent resolution of the dossier is the same on both paths: the
eager branch materializes exactly the row the fallback point lookup
returns. -/
theorem agentObjOf_eq (db : DB) (ld : Loaded) (c : Client) :
    agentObjOf db ld c = findAgent db c.agent_id := by
  unfold agentObjOf
  cases h : ld.agent
  · simp
  · cases hfa : findAgent db c.agent_id <;> simp [hfa]

/-- When the PHONE table is ordered by its autoincrement key (which
insertion-order issuance maintains), the fallback query's ORDER BY returns
the rows in store order, i.e. exactly the eager relationship rows. -/
theorem queryPhones_eq_eagerPhones (db : DB) (c : Client)
    (hs : db.phones.Pairwise (fun a b => a.phone_id < b.phone_id)) :
    queryPhones db c = eagerPhones db c := by
  unfold queryPhones eagerPhones
  have hs2 : List.Sorted (fun a b : Phone => a.phone_id ≤ b.phone_id)
      (db.phones.filter (fun p => p.client_id == c.client_id)) :=
    (hs.filter (fun p : Phone => p.client_id == c.client_id)).imp (fun h => Nat.le_of_lt h)
  exact hs2.insertionSort_eq

/-- Claim C2: for every stored Client the dossier is identical whether each
relation was eagerly pre-loaded or is fetched by the fallback per-relation
query (assuming the PHONE table is in autoincrement order, as issuance
leaves it). -/
theorem dossier_load_equivalence (db : DB) (c : Client) (ld : Loaded)
    (hs : db.phones.Pairwise (fun a b => a.phone_id < b.phone_id)) :
    client_to_dict db ld c = client_to_dict db Loaded.all c := by
  have h1 : queryPhones db c = eagerPhones db c := queryPhones_eq_eagerPhones db c hs
  have h2 : queryPassports db c = eagerPassports db c := rfl
  have h3 : querySnils db c = eagerSnils db c := rfl
  simp [client_to_dict, agentObjOf_eq, h1, h2, h3, ite_self]

/-- Witness for C2: on db0, the all-fallback dossier of client0 equals the
all-eager one. -/
theorem dossier_load_equivalence_witness :
    client_to_dict db0 Loaded.nothing client0 = client_to_dict db0 Loaded.all client0 :=
  dossier_load_equivalence db0 client0 Loaded.nothing (by decide)

/-- Claim C7 evaluated (the repository's own response schema declares
birth_date and department_code on dossier passports, and create_passport
stores them, but `_client_to_dict` omits both keys): a passport created with
a birth date and a department code is stored with them, yet the dossier
fetched immediately afterwards reports both as null. -/
theorem passport_dossier_drops_added_fields :
    ∃ dbr ps, create_passport db0 client0.client_id passIn0 = (dbr, Except.ok ps) ∧
      ps.birth_date = some 7 ∧ ps.department_code = some "123-456" ∧
      (get_client dbr client0.client_id).map
          (fun d => d.passports.map (fun x => (x.birth_date, x.department_code)))
        = some [(none, none)] := by
  exact ⟨_, _, rfl, rfl, rfl, rfl⟩

/-- One setattr never touches the primary key, the external id or the
server-maintained timestamps. -/
theorem setClientField_ids (c : Client) (pf : ClientPatch) :
    (setClientField c pf).client_id = c.client_id ∧
    (setClientField c pf).external_id = c.external_id ∧
    (setClientField c pf).created_at = c.created_at ∧
    (setClientField c pf).updated_at = c.updated_at := by
  cases pf <;> exact ⟨rfl, rfl, rfl, rfl⟩

/-- The payload loop never touches the primary key, the external id or the
server-maintained timestamps. -/
theorem applyClientPatch_ids (p : List ClientPatch) (c : Client) :
    (applyClientPatch c p).client_id = c.client_id ∧
    (applyClientPatch c p).external_id = c.external_id ∧
    (applyClientPatch c p).created_at = c.created_at ∧
    (applyClientPatch c p).updated_at = c.updated_at := by
  induction p generalizing c with
  | nil => exact ⟨rfl, rfl, rfl, rfl⟩
  | cons pf ptl ih =>
    have h1 := setClientField_ids c pf
    have h2 := ih (setClientField c pf)
    exact ⟨h2.1.trans h1.1, h2.2.1.trans h1.2.1, h2.2.2.1.trans h1.2.2.1,
      h2.2.2.2.trans h1.2.2.2⟩

/-- Projection equality is reflexive. -/
theorem clientFieldEq_refl (c : Client) (f : ClientField) : clientFieldEq c c f := by
  cases f <;> rfl

/-- Projection equality is transitive. -/
theorem clientFieldEq_trans {a b c : Client} (f : ClientField) :
    clientFieldEq a b f → clientFieldEq b c f → clientFieldEq a c f := by
  cases f <;> exact fun h1 h2 => h1.trans h2

/-- A setattr of one payload entry leaves every column it does not name
unchanged. -/
theorem setClientField_frame (c : Client) (pf : ClientPatch) (f : ClientField)
    (h : pf.fieldOf ≠ some f) : clientFieldEq (setClientField c pf) c f := by
  cases pf <;> cases f <;>
    simp_all [setClientField, ClientPatch.fieldOf, clientFieldEq]

/-- The payload loop leaves every column named by no payload entry
unchanged. -/
theorem applyClientPatch_frame (p : List ClientPatch) (c : Client) (f : ClientField)
    (h : ∀ pf ∈ p, pf.fieldOf ≠ some f) :
    clientFieldEq (applyClientPatch c p) c f := by
  induction p generalizing c with
  | nil => exact clientFieldEq_refl c f
  | cons pf ptl ih =>
    have h1 := setClientField_frame c pf f (h pf (List.mem_cons_self pf ptl))
    have h2 := ih (setClientField c pf) (fun x hx => h x (List.mem_cons_of_mem pf hx))
    exact clientFieldEq_trans f h2 h1

/-- The committed row agrees with the merge-patched row on every updatable
column (only updated_at may differ). -/
theorem clientAfterPatch_fieldEq (db : DB) (c : Client) (p : List ClientPatch)
    (f : ClientField) :
    clientFieldEq (clientAfterPatch db c p) (applyClientPatch c p) f := by
  unfold clientAfterPatch
  cases f <;> (simp only []; split <;> rfl)

/-- Claim C6: update_client applies exactly the fields present in the
payload — every column not named in the payload keeps its value (only the
server-maintained updated timestamp may change), the primary key, external
id and creation timestamp never change, no other table or row is touched,
and a payload key naming no known updatable field is silently ignored. -/
theorem update_client_merge_patch (db : DB) (cid : Nat) (p : List ClientPatch) (c : Client)
    (hc : findClient db cid = some c)
    (hagp : (findAgent db (applyClientPatch c p).agent_id).isSome = true)
    (hstp : (getStatus db (applyClientPatch c p).status_code).isSome = true)
    (hsgp : (getStage db (applyClientPatch c p).current_stage).isSome = true) :
    (update_client db cid p).2
      = Except.ok (some (client_to_dict (update_client db cid p).1 Loaded.all
          (clientAfterPatch db c p))) ∧
    (update_client db cid p).1.clients
      = db.clients.map (fun x => if x.client_id == cid then clientAfterPatch db c p else x) ∧
    (∀ f : ClientField, (∀ pf ∈ p, pf.fieldOf ≠ some f) →
      clientFieldEq (clientAfterPatch db c p) c f) ∧
    (clientAfterPatch db c p).client_id = c.client_id ∧
    (clientAfterPatch db c p).external_id = c.external_id ∧
    (clientAfterPatch db c p).created_at = c.created_at ∧
    (update_client db cid p).1.agents = db.agents ∧
    (update_client db cid p).1.phones = db.phones ∧
    (update_client db cid p).1.passports = db.passports ∧
    (update_client db cid p).1.snils = db.snils ∧
    (∀ k, update_client db cid (p ++ [ClientPatch.unknown k]) = update_client db cid p) := by
  have e1 : (clientAfterPatch db c p).agent_id = (applyClientPatch c p).agent_id :=
    clientAfterPatch_fieldEq db c p ClientField.agent_id
  have e2 : (clientAfterPatch db c p).status_code = (applyClientPatch c p).status_code :=
    clientAfterPatch_fieldEq db c p ClientField.status_code
  have e3 : (clientAfterPatch db c p).current_stage = (applyClientPatch c p).current_stage :=
    clientAfterPatch_fieldEq db c p ClientField.current_stage
  have hcond : ((findAgent db (clientAfterPatch db c p).agent_id).isSome
      && (getStatus db (clientAfterPatch db c p).status_code).isSome
      && (getStage db (clientAfterPatch db c p).current_stage).isSome) = true := by
    rw [e1, e2, e3, hagp, hstp, hsgp]
    rfl
  have hids : (clientAfterPatch db c p).client_id = c.client_id ∧
      (clientAfterPatch db c p).external_id = c.external_id ∧
      (clientAfterPatch db c p).created_at = c.created_at := by
    have ha := applyClientPatch_ids p c
    have hb : (clientAfterPatch db c p).client_id = (applyClientPatch c p).client_id ∧
        (clientAfterPatch db c p).external_id = (applyClientPatch c p).external_id ∧
        (clientAfterPatch db c p).created_at = (applyClientPatch c p).created_at := by
      unfold clientAfterPatch
      simp only []
      split <;> exact ⟨rfl, rfl, rfl⟩
    exact ⟨hb.1.trans ha.1, hb.2.1.trans ha.2.1, hb.2.2.trans ha.2.2.1⟩
  refine ⟨?_, ?_, ?_, hids.1, hids.2.1, hids.2.2, ?_, ?_, ?_, ?_, ?_⟩
  · simp only [update_client, hc, hcond, if_true]
  · simp only [update_client, hc, hcond, if_true]
  · intro f hf
    exact clientFieldEq_trans f (clientAfterPatch_fieldEq db c p f)
      (applyClientPatch_frame p c f hf)
  · simp only [update_client, hc, hcond, if_true]
  · simp only [update_client, hc, hcond, if_true]
  · simp only [update_client, hc, hcond, if_true]
  · simp only [update_client, hc, hcond, if_true]
  · intro k
    have happ : applyClientPatch c (p ++ [ClientPatch.unknown k]) = applyClientPatch c p := by
      simp [applyClientPatch, List.foldl_append, setClientField]
    have hany : (p ++ [ClientPatch.unknown k]).any (fun pf => pf.fieldOf.isSome)
        = p.any (fun pf => pf.fieldOf.isSome) := by
      simp [List.any_append, ClientPatch.fieldOf]
    have hcap : clientAfterPatch db c (p ++ [ClientPatch.unknown k]) = clientAfterPatch db c p := by
      unfold clientAfterPatch
      rw [happ, hany]
    simp only [update_client, hc, hcap]

/-- Witness for C6 at db0: patching only the notes of client 2 leaves the
name and the phone table unchanged and the payload with an unknown key
behaves identically. -/
theorem update_client_merge_patch_witness :
    (update_client db0 2 [ClientPatch.notes (some "x")]).1.phones = db0.phones ∧
    clientFieldEq (clientAfterPatch db0 client0 [ClientPatch.notes (some "x")]) client0
      ClientField.last_name := by
  have h := update_client_merge_patch db0 2 [ClientPatch.notes (some "x")] client0
    (by decide) (by decide) (by decide) (by decide)
  exact ⟨h.2.2.2.2.2.2.2.1, h.2.2.1 ClientField.last_name (by decide)⟩

/-- In a list whose keys are pairwise distinct, two members with the same
key are the same element. -/
theorem keyed_mem_unique {α β : Type _} (key : α → β) {l : List α}
    (hp : l.Pairwise (fun x y => key x ≠ key y)) :
    ∀ a ∈ l, ∀ b ∈ l, key a = key b → a = b := by
  induction l with
  | nil =>
    intro a ha
    exact absurd ha (List.not_mem_nil a)
  | cons x t ih =>
    intro a ha b hb hk
    rcases List.mem_cons.mp ha with rfl | ha'
    · rcases List.mem_cons.mp hb with rfl | hb'
      · rfl
      · exact absurd hk (List.rel_of_pairwise_cons hp hb')
    · rcases List.mem_cons.mp hb with rfl | hb'
      · exact absurd hk.symm (List.rel_of_pairwise_cons hp ha')
      · exact ih hp.of_cons a ha' b hb' hk

/-- One agent setattr never touches the primary key or the external id
(the PATCH schema has no field for either). -/
theorem setAgentField_ids (a : Agent) (pf : AgentPatch) :
    (setAgentField a pf).agent_id = a.agent_id ∧
    (setAgentField a pf).external_id = a.external_id := by
  cases pf <;> exact ⟨rfl, rfl⟩

/-- The agent payload loop never touches the primary key or the external
id. -/
theorem applyAgentPatch_ids (p : List AgentPatch) (a : Agent) :
    (applyAgentPatch a p).agent_id = a.agent_id ∧
    (applyAgentPatch a p).external_id = a.external_id := by
  induction p generalizing a with
  | nil => exact ⟨rfl, rfl⟩
  | cons pf ptl ih =>
    have h1 := setAgentField_ids a pf
    have h2 := ih (setAgentField a pf)
    exact ⟨h2.1.trans h1.1, h2.2.trans h1.2⟩

/-- The committed client row of update_client keeps the primary key and the
external id. -/
theorem clientAfterPatch_ids (db : DB) (c : Client) (p : List ClientPatch) :
    (clientAfterPatch db c p).client_id = c.client_id ∧
    (clientAfterPatch db c p).external_id = c.external_id := by
  have ha := applyClientPatch_ids p c
  have hb : (clientAfterPatch db c p).client_id = (applyClientPatch c p).client_id ∧
      (clientAfterPatch db c p).external_id = (applyClientPatch c p).external_id := by
    unfold clientAfterPatch
    split <;> exact ⟨rfl, rfl⟩
  exact ⟨hb.1.trans ha.1, hb.2.trans ha.2.1⟩

/-- Every stored agent external id is bounded by the table maximum. -/
theorem le_maxAgentExternal {l : List Agent} : ∀ a ∈ l, a.external_id ≤ maxAgentExternal l := by
  induction l with
  | nil =>
    intro a ha
    exact absurd ha (List.not_mem_nil a)
  | cons x t ih =>
    intro a ha
    rcases List.mem_cons.mp ha with rfl | ha'
    · exact Nat.le_max_left _ _
    · exact Nat.le_trans (ih a ha') (Nat.le_max_right _ _)

/-- Every stored client external id is bounded by the table maximum. -/
theorem le_maxClientExternal {l : List Client} : ∀ c ∈ l, c.external_id ≤ maxClientExternal l := by
  induction l with
  | nil =>
    intro c hc
    exact absurd hc (List.not_mem_nil c)
  | cons x t ih =>
    intro c hc
    rcases List.mem_cons.mp hc with rfl | hc'
    · exact Nat.le_max_left _ _
    · exact Nat.le_trans (ih c hc') (Nat.le_max_right _ _)

/-- An operation that leaves the AGENT and CLIENT tables untouched and never
decreases the generators satisfies the external-id contract. -/
theorem stepContract_of_same (db db' : DB)
    (hA : db'.agents = db.agents) (hC : db'.clients = db.clients)
    (h1 : db.agentSeq ≤ db'.agentSeq) (h2 : db.clientSeq ≤ db'.clientSeq)
    (h3 : db.uuidSeq ≤ db'.uuidSeq) (h : eidInv db) : StepContract db db' := by
  obtain ⟨⟨haB, haE, haI⟩, ⟨hcB, hcE, hcI⟩⟩ := h
  refine ⟨⟨⟨?_, ?_, ?_⟩, ?_, ?_, ?_⟩, ?_, ?_, ?_, ?_⟩
  · intro a ha
    rw [hA] at ha
    obtain ⟨b1, b2⟩ := haB a ha
    exact ⟨Nat.lt_of_lt_of_le b1 h1, Nat.lt_of_lt_of_le b2 h3⟩
  · rw [hA]; exact haE
  · rw [hA]; exact haI
  · intro c hc
    rw [hC] at hc
    obtain ⟨b1, b2⟩ := hcB c hc
    exact ⟨Nat.lt_of_lt_of_le b1 h2, Nat.lt_of_lt_of_le b2 h3⟩
  · rw [hC]; exact hcE
  · rw [hC]; exact hcI
  · intro a ha a' ha' hk
    rw [hA] at ha'
    rw [keyed_mem_unique (fun x : Agent => x.agent_id) haI a' ha' a ha hk]
  · intro a' ha' hne a ha
    rw [hA] at ha'
    exact absurd rfl (hne a' ha')
  · intro c hc c' hc' hk
    rw [hC] at hc'
    rw [keyed_mem_unique (fun x : Client => x.client_id) hcI c' hc' c hc hk]
  · intro c' hc' hne c hc
    rw [hC] at hc'
    exact absurd rfl (hne c' hc')

/-- create_agent satisfies the external-id contract: the new row takes the
next sequence value, strictly above every stored one. -/
theorem stepContract_createAgent (db : DB) (inp : AgentCreateIn) (h : eidInv db) :
    StepContract db (create_agent db inp).1 := by
  have hstep : (create_agent db inp).1
      = { db with
            agents := db.agents ++ [newAgentRow db inp]
            uuidSeq := db.uuidSeq + 1
            agentSeq := db.agentSeq + 1 } := rfl
  rw [hstep]
  obtain ⟨⟨haB, haE, haI⟩, ⟨hcB, hcE, hcI⟩⟩ := h
  refine ⟨⟨⟨?_, ?_, ?_⟩, ?_, ?_, ?_⟩, ?_, ?_, ?_, ?_⟩
  · intro a ha
    rcases List.mem_append.mp ha with ha' | ha'
    · obtain ⟨b1, b2⟩ := haB a ha'
      exact ⟨Nat.lt_succ_of_lt b1, Nat.lt_succ_of_lt b2⟩
    · rcases List.mem_singleton.mp ha' with rfl
      exact ⟨Nat.lt_succ_self _, Nat.lt_succ_self _⟩
  · refine List.pairwise_append.mpr ⟨haE, List.pairwise_singleton _ _, ?_⟩
    intro a ha b hb
    rcases List.mem_singleton.mp hb with rfl
    exact Nat.ne_of_lt (haB a ha).1
  · refine List.pairwise_append.mpr ⟨haI, List.pairwise_singleton _ _, ?_⟩
    intro a ha b hb
    rcases List.mem_singleton.mp hb with rfl
    exact Nat.ne_of_lt (haB a ha).2
  · intro c hc
    obtain ⟨b1, b2⟩ := hcB c hc
    exact ⟨b1, Nat.lt_succ_of_lt b2⟩
  · exact hcE
  · exact hcI
  · intro a ha a' ha' hk
    rcases List.mem_append.mp ha' with ha'' | ha''
    · rw [keyed_mem_unique (fun x : Agent => x.agent_id) haI a' ha'' a ha hk]
    · rcases List.mem_singleton.mp ha'' with rfl
      exact absurd hk.symm (Nat.ne_of_lt (haB a ha).2)
  · intro a' ha' hne a ha
    rcases List.mem_append.mp ha' with ha'' | ha''
    · exact absurd rfl (hne a' ha'')
    · rcases List.mem_singleton.mp ha'' with rfl
      exact (haB a ha).1
  · intro c hc c' hc' hk
    rw [keyed_mem_unique (fun x : Client => x.client_id) hcI c' hc' c hc hk]
  · intro c' hc' hne c hc
    exact absurd rfl (hne c' hc')

/-- create_client satisfies the external-id contract on every branch. -/
theorem stepContract_createClient (db : DB) (inp : ClientCreateIn) (h : eidInv db) :
    StepContract db (create_client db inp).1 := by
  cases hfa : findAgent db inp.agent_id with
  | none =>
    have hstep : (create_client db inp).1 = db := by
      simp [create_client, hfa]
    rw [hstep]
    exact stepContract_of_same db db rfl rfl (Nat.le_refl _) (Nat.le_refl _) (Nat.le_refl _) h
  | some a0 =>
    by_cases hcond : ((getStatus db inp.status_code).isSome
        && (getStage db inp.current_stage).isSome) = true
    · have hstep : (create_client db inp).1
          = { db with
              clients := db.clients ++ [newClientRow db inp]
              phones := db.phones ++ (inp.phones.getD []).enum.map (fun pr =>
                { phone_id := db.phoneSeq + pr.1, client_id := db.uuidSeq,
                  number := pr.2, created_at := db.now : Phone })
              uuidSeq := db.uuidSeq + 1
              clientSeq := db.clientSeq + 1
              phoneSeq := db.phoneSeq + (inp.phones.getD []).length } := by
        simp [create_client, hfa, hcond]
      rw [hstep]
      obtain ⟨⟨haB, haE, haI⟩, ⟨hcB, hcE, hcI⟩⟩ := h
      refine ⟨⟨⟨?_, ?_, ?_⟩, ?_, ?_, ?_⟩, ?_, ?_, ?_, ?_⟩
      · intro a ha
        obtain ⟨b1, b2⟩ := haB a ha
        exact ⟨b1, Nat.lt_succ_of_lt b2⟩
      · exact haE
      · exact haI
      · intro c hc
        rcases List.mem_append.mp hc with hc' | hc'
        · obtain ⟨b1, b2⟩ := hcB c hc'
          exact ⟨Nat.lt_succ_of_lt b1, Nat.lt_succ_of_lt b2⟩
        · rcases List.mem_singleton.mp hc' with rfl
          exact ⟨Nat.lt_succ_self _, Nat.lt_succ_self _⟩
      · refine List.pairwise_append.mpr ⟨hcE, List.pairwise_singleton _ _, ?_⟩
        intro c hc b hb
        rcases List.mem_singleton.mp hb with rfl
        exact Nat.ne_of_lt (hcB c hc).1
      · refine List.pairwise_append.mpr ⟨hcI, List.pairwise_singleton _ _, ?_⟩
        intro c hc b hb
        rcases List.mem_singleton.mp hb with rfl
        exact Nat.ne_of_lt (hcB c hc).2
      · intro a ha a' ha' hk
        rw [keyed_mem_unique (fun x : Agent => x.agent_id) haI a' ha' a ha hk]
      · intro a' ha' hne a ha
        exact absurd rfl (hne a' ha')
      · intro c hc c' hc' hk
        rcases List.mem_append.mp hc' with hc'' | hc''
        · rw [keyed_mem_unique (fun x : Client => x.client_id) hcI c' hc'' c hc hk]
        · rcases List.mem_singleton.mp hc'' with rfl
          exact absurd hk.symm (Nat.ne_of_lt (hcB c hc).2)
      · intro c' hc' hne c hc
        rcases List.mem_append.mp hc' with hc'' | hc''
        · exact absurd rfl (hne c' hc'')
        · rcases List.mem_singleton.mp hc'' with rfl
          exact (hcB c hc).1
    · have hstep : (create_client db inp).1 = db := by
        simp only [create_client, hfa]
        rw [if_neg]
        exact fun hx => hcond hx
      rw [hstep]
      exact stepContract_of_same db db rfl rfl (Nat.le_refl _) (Nat.le_refl _) (Nat.le_refl _) h

/-- delete_agent satisfies the external-id contract on every branch. -/
theorem stepContract_deleteAgent (db : DB) (aid : Nat) (h : eidInv db) :
    StepContract db (delete_agent db aid).1 := by
  cases hfa : findAgent db aid with
  | none =>
    have hstep : (delete_agent db aid).1 = db := by simp [delete_agent, hfa]
    rw [hstep]
    exact stepContract_of_same db db rfl rfl (Nat.le_refl _) (Nat.le_refl _) (Nat.le_refl _) h
  | some a0 =>
    by_cases hcnt : (db.clients.filter (fun c => c.agent_id == aid)).length > 0
    · have hstep : (delete_agent db aid).1 = db := by simp [delete_agent, hfa, hcnt]
      rw [hstep]
      exact stepContract_of_same db db rfl rfl (Nat.le_refl _) (Nat.le_refl _) (Nat.le_refl _) h
    · have hstep : (delete_agent db aid).1
          = { db with agents := db.agents.filter (fun a => !(a.agent_id == aid)) } := by
        simp [delete_agent, hfa, hcnt]
      rw [hstep]
      obtain ⟨⟨haB, haE, haI⟩, ⟨hcB, hcE, hcI⟩⟩ := h
      refine ⟨⟨⟨?_, ?_, ?_⟩, ?_, ?_, ?_⟩, ?_, ?_, ?_, ?_⟩
      · intro a ha
        exact haB a (List.mem_of_mem_filter ha)
      · exact haE.filter _
      · exact haI.filter _
      · exact hcB
      · exact hcE
      · exact hcI
      · intro a ha a' ha' hk
        rw [keyed_mem_unique (fun x : Agent => x.agent_id) haI a'
          (List.mem_of_mem_filter ha') a ha hk]
      · intro a' ha' hne a ha
        exact absurd rfl (hne a' (List.mem_of_mem_filter ha'))
      · intro c hc c' hc' hk
        rw [keyed_mem_unique (fun x : Client => x.client_id) hcI c' hc' c hc hk]
      · intro c' hc' hne c hc
        exact absurd rfl (hne c' hc')

/-- delete_client satisfies the external-id contract on every branch. -/
theorem stepContract_deleteClient (db : DB) (cid : Nat) (h : eidInv db) :
    StepContract db (delete_client db cid).1 := by
  cases hfc : findClient db cid with
  | none =>
    have hstep : (delete_client db cid).1 = db := by simp [delete_client, hfc]
    rw [hstep]
    exact stepContract_of_same db db rfl rfl (Nat.le_refl _) (Nat.le_refl _) (Nat.le_refl _) h
  | some c0 =>
    have hstep : (delete_client db cid).1
        = { db with
            clients := db.clients.filter (fun c => !(c.client_id == cid))
            phones := db.phones.filter (fun p => !(p.client_id == cid))
            passports := db.passports.filter (fun ps => !(ps.client_id == cid))
            snils := db.snils.filter (fun s => !(s.client_id == cid))
            documents := db.documents.filter (fun d => !(d.client_id == cid))
            reminders := db.reminders.filter (fun r => !(r.client_id == cid)) } := by
      simp [delete_client, hfc]
    rw [hstep]
    obtain ⟨⟨haB, haE, haI⟩, ⟨hcB, hcE, hcI⟩⟩ := h
    refine ⟨⟨⟨?_, ?_, ?_⟩, ?_, ?_, ?_⟩, ?_, ?_, ?_, ?_⟩
    · exact haB
    · exact haE
    · exact haI
    · intro c hc
      exact hcB c (List.mem_of_mem_filter hc)
    · exact hcE.filter _
    · exact hcI.filter _
    · intro a ha a' ha' hk
      rw [keyed_mem_unique (fun x : Agent => x.agent_id) haI a' ha' a ha hk]
    · intro a' ha' hne a ha
      exact absurd rfl (hne a' ha')
    · intro c hc c' hc' hk
      rw [keyed_mem_unique (fun x : Client => x.client_id) hcI c'
        (List.mem_of_mem_filter hc') c hc hk]
    · intro c' hc' hne c hc
      exact absurd rfl (hne c' (List.mem_of_mem_filter hc'))

/-- update_agent satisfies the external-id contract: the PATCH payload
cannot name agent_id or external_id, so the replaced row keeps both. -/
theorem stepContract_updateAgent (db : DB) (aid : Nat) (p : List AgentPatch)
    (h : eidInv db) : StepContract db (update_agent db aid p).1 := by
  cases hfa : findAgent db aid with
  | none =>
    have hstep : (update_agent db aid p).1 = db := by simp [update_agent, hfa]
    rw [hstep]
    exact stepContract_of_same db db rfl rfl (Nat.le_refl _) (Nat.le_refl _) (Nat.le_refl _) h
  | some a0 =>
    obtain ⟨⟨haB, haE, haI⟩, ⟨hcB, hcE, hcI⟩⟩ := h
    have hamem : a0 ∈ db.agents := List.mem_of_find?_eq_some hfa
    have haid : a0.agent_id = aid := by simpa using List.find?_some hfa
    have hstep : (update_agent db aid p).1
        = { db with agents := db.agents.map (fun x =>
            if x.agent_id == aid then applyAgentPatch a0 p else x) } := by
      simp [update_agent, hfa]
    rw [hstep]
    have hpt : ∀ x ∈ db.agents,
        ((if x.agent_id == aid then applyAgentPatch a0 p else x)).agent_id = x.agent_id ∧
        ((if x.agent_id == aid then applyAgentPatch a0 p else x)).external_id = x.external_id := by
      intro x hx
      by_cases hxa : x.agent_id = aid
      · have hxeq : x = a0 := keyed_mem_unique (fun y : Agent => y.agent_id) haI x hx a0 hamem
          (by show x.agent_id = a0.agent_id; rw [hxa, haid])
        subst hxeq
        rw [if_pos (by simp [hxa])]
        exact ⟨(applyAgentPatch_ids p x).1.trans rfl, (applyAgentPatch_ids p x).2⟩
      · rw [if_neg (by simp [hxa])]
        exact ⟨rfl, rfl⟩
    refine ⟨⟨⟨?_, ?_, ?_⟩, ?_, ?_, ?_⟩, ?_, ?_, ?_, ?_⟩
    · intro y hy
      obtain ⟨x, hx, hfx⟩ := List.mem_map.mp hy
      obtain ⟨b1, b2⟩ := haB x hx
      obtain ⟨e1, e2⟩ := hpt x hx
      rw [← hfx]
      exact ⟨by rw [e2]; exact b1, by rw [e1]; exact b2⟩
    · exact List.pairwise_map.mpr (haE.imp_of_mem (fun {x y} hx hy hR => by
        rw [(hpt x hx).2, (hpt y hy).2]; exact hR))
    · exact List.pairwise_map.mpr (haI.imp_of_mem (fun {x y} hx hy hR => by
        rw [(hpt x hx).1, (hpt y hy).1]; exact hR))
    · exact hcB
    · exact hcE
    · exact hcI
    · intro a ha a' ha' hk
      obtain ⟨x, hx, hfx⟩ := List.mem_map.mp ha'
      obtain ⟨e1, e2⟩ := hpt x hx
      have hxa : x.agent_id = a.agent_id := by rw [← e1, hfx, hk]
      have hxeq : x = a := keyed_mem_unique (fun y : Agent => y.agent_id) haI x hx a ha hxa
      subst hxeq
      rw [← hfx, e2]
    · intro a' ha' hne a ha
      obtain ⟨x, hx, hfx⟩ := List.mem_map.mp ha'
      have hxc : x.agent_id = a'.agent_id := by rw [← (hpt x hx).1, hfx]
      exact absurd hxc (hne x hx)
    · intro c hc c' hc' hk
      rw [keyed_mem_unique (fun x : Client => x.client_id) hcI c' hc' c hc hk]
    · intro c' hc' hne c hc
      exact absurd rfl (hne c' hc')

/-- update_client satisfies the external-id contract: the PATCH payload
cannot name client_id or external_id, so the replaced row keeps both. -/
theorem stepContract_updateClient (db : DB) (cid : Nat) (p : List ClientPatch)
    (h : eidInv db) : StepContract db (update_client db cid p).1 := by
  cases hfc : findClient db cid with
  | none =>
    have hstep : (update_client db cid p).1 = db := by simp [update_client, hfc]
    rw [hstep]
    exact stepContract_of_same db db rfl rfl (Nat.le_refl _) (Nat.le_refl _) (Nat.le_refl _) h
  | some c0 =>
    by_cases hcond : ((findAgent db (clientAfterPatch db c0 p).agent_id).isSome
        && (getStatus db (clientAfterPatch db c0 p).status_code).isSome
        && (getStage db (clientAfterPatch db c0 p).current_stage).isSome) = true
    · obtain ⟨⟨haB, haE, haI⟩, ⟨hcB, hcE, hcI⟩⟩ := h
      have hcmem : c0 ∈ db.clients := List.mem_of_find?_eq_some hfc
      have hcid : c0.client_id = cid := by simpa using List.find?_some hfc
      have hstep : (update_client db cid p).1
          = { db with clients := db.clients.map (fun x =>
              if x.client_id == cid then clientAfterPatch db c0 p else x) } := by
        simp [update_client, hfc, hcond]
      rw [hstep]
      have hpt : ∀ x ∈ db.clients,
          ((if x.client_id == cid then clientAfterPatch db c0 p else x)).client_id
            = x.client_id ∧
          ((if x.client_id == cid then clientAfterPatch db c0 p else x)).external_id
            = x.external_id := by
        intro x hx
        by_cases hxa : x.client_id = cid
        · have hxeq : x = c0 := keyed_mem_unique (fun y : Client => y.client_id) hcI x hx c0
            hcmem (by show x.client_id = c0.client_id; rw [hxa, hcid])
          subst hxeq
          rw [if_pos (by simp [hxa])]
          exact ⟨(clientAfterPatch_ids db x p).1, (clientAfterPatch_ids db x p).2⟩
        · rw [if_neg (by simp [hxa])]
          exact ⟨rfl, rfl⟩
      refine ⟨⟨⟨?_, ?_, ?_⟩, ?_, ?_, ?_⟩, ?_, ?_, ?_, ?_⟩
      · exact haB
      · exact haE
      · exact haI
      · intro y hy
        obtain ⟨x, hx, hfx⟩ := List.mem_map.mp hy
        obtain ⟨b1, b2⟩ := hcB x hx
        obtain ⟨e1, e2⟩ := hpt x hx
        rw [← hfx]
        exact ⟨by rw [e2]; exact b1, by rw [e1]; exact b2⟩
      · exact List.pairwise_map.mpr (hcE.imp_of_mem (fun {x y} hx hy hR => by
          rw [(hpt x hx).2, (hpt y hy).2]; exact hR))
      · exact List.pairwise_map.mpr (hcI.imp_of_mem (fun {x y} hx hy hR => by
          rw [(hpt x hx).1, (hpt y hy).1]; exact hR))
      · intro a ha a' ha' hk
        rw [keyed_mem_unique (fun x : Agent => x.agent_id) haI a' ha' a ha hk]
      · intro a' ha' hne a ha
        exact absurd rfl (hne a' ha')
      · intro c hc c' hc' hk
        obtain ⟨x, hx, hfx⟩ := List.mem_map.mp hc'
        obtain ⟨e1, e2⟩ := hpt x hx
        have hxa : x.client_id = c.client_id := by rw [← e1, hfx, hk]
        have hxeq : x = c := keyed_mem_unique (fun y : Client => y.client_id) hcI x hx c hc hxa
        subst hxeq
        rw [← hfx, e2]
      · intro c' hc' hne c hc
        obtain ⟨x, hx, hfx⟩ := List.mem_map.mp hc'
        have hxc : x.client_id = c'.client_id := by rw [← (hpt x hx).1, hfx]
        exact absurd hxc (hne x hx)
    · have hstep : (update_client db cid p).1 = db := by
        simp only [update_client, hfc]
        rw [if_neg]
        exact fun hx => hcond hx
      rw [hstep]
      exact stepContract_of_same db db rfl rfl (Nat.le_refl _) (Nat.le_refl _) (Nat.le_refl _) h

/-- Claim C3: external ids are issued per entity type with independent
sequences — after any crud operation on a well-formed store the invariant
still holds, every surviving Agent/Client row keeps its external id, any row
under a fresh primary key carries an external id strictly greater than every
previously issued one of its type, and the migration bootstrap
(setval to max + 1) puts both sequences strictly above every stored external
id so pre-existing rows are never collided with. -/
theorem external_id_contract (db : DB) (op : Op) (h : eidInv db) :
    StepContract db (step db op) ∧
    (∀ db₂ : DB,
      (∀ a ∈ (bootstrapSeqs db₂).agents, a.external_id < (bootstrapSeqs db₂).agentSeq) ∧
      (∀ c ∈ (bootstrapSeqs db₂).clients, c.external_id < (bootstrapSeqs db₂).clientSeq)) := by
  constructor
  · cases op with
    | createClient inp => exact stepContract_createClient db inp h
    | updateClient cid p => exact stepContract_updateClient db cid p h
    | deleteClient cid => exact stepContract_deleteClient db cid h
    | createAgent inp => exact stepContract_createAgent db inp h
    | updateAgent aid p => exact stepContract_updateAgent db aid p h
    | deleteAgent aid => exact stepContract_deleteAgent db aid h
    | addPhone cid num =>
      refine stepContract_of_same db _ ?_ ?_ ?_ ?_ ?_ h <;>
        cases hf : findClient db cid <;> simp [step, add_phone, hf]
    | deletePhone pid =>
      refine stepContract_of_same db _ ?_ ?_ ?_ ?_ ?_ h <;>
        cases hf : db.phones.find? (fun p => p.phone_id == pid) <;>
          simp [step, delete_phone, hf]
    | createPassport cid inp =>
      refine stepContract_of_same db _ ?_ ?_ ?_ ?_ ?_ h <;>
        cases hf : findClient db cid <;> simp [step, create_passport, hf, Nat.le_succ]
    | updatePassport pid p =>
      refine stepContract_of_same db _ ?_ ?_ ?_ ?_ ?_ h <;>
        cases hf : db.passports.find? (fun ps => ps.passport_id == pid) <;>
          simp [step, update_passport, hf]
    | createSnils cid inp =>
      refine stepContract_of_same db _ ?_ ?_ ?_ ?_ ?_ h <;>
        cases hf : findClient db cid <;> simp [step, create_snils, hf, Nat.le_succ]
    | updateSnils sid p =>
      refine stepContract_of_same db _ ?_ ?_ ?_ ?_ ?_ h <;>
        cases hf : db.snils.find? (fun s => s.snils_id == sid) <;>
          simp [step, update_snils, hf]
    | createStatus code descr =>
      refine stepContract_of_same db _ ?_ ?_ ?_ ?_ ?_ h <;>
        by_cases hf : (getStatus db code).isSome = true <;> simp [step, create_status, hf]
    | createStage code descr =>
      refine stepContract_of_same db _ ?_ ?_ ?_ ?_ ?_ h <;>
        by_cases hf : (getStage db code).isSome = true <;> simp [step, create_stage, hf]
  · intro db₂
    exact ⟨fun a ha => Nat.lt_succ_of_le (le_maxAgentExternal a ha),
      fun c hc => Nat.lt_succ_of_le (le_maxClientExternal c hc)⟩

/-- Witness for C3: db0 satisfies the issuance invariant and creating an
agent preserves the contract. -/
theorem external_id_contract_witness :
    StepContract db0 (step db0 (Op.createAgent inpOkAgent)) :=
  (external_id_contract db0 (Op.createAgent inpOkAgent)
    (by simp only [eidInv, agentsOk, clientsOk]; decide)).1

/-- The char list of the pattern `f"%{q}%"` that list_clients hands to
ilike. -/
theorem pattern_toList (q : String) :
    ("%" ++ q ++ "%").toList = '%' :: q.toList ++ ['%'] := by
  show ("%" ++ q ++ "%").data = '%' :: q.data ++ ['%']
  simp [String.data_append]

/-- A leading `%` matches exactly when the rest of the pattern matches some
suffix of the text. -/
theorem likeMatch_pct_iff (p : List Char) (s : List Char) :
    likeMatch ('%' :: p) s = true ↔ ∃ n, likeMatch p (s.drop n) = true := by
  constructor
  · intro h
    simp only [likeMatch, List.any_eq_true, List.mem_range] at h
    obtain ⟨n, _, hn⟩ := h
    exact ⟨n, hn⟩
  · rintro ⟨n, hn⟩
    simp only [likeMatch, List.any_eq_true, List.mem_range]
    by_cases hle : n ≤ s.length
    · exact ⟨n, Nat.lt_succ_of_le hle, hn⟩
    · refine ⟨s.length, Nat.lt_succ_self _, ?_⟩
      rw [List.drop_length]
      rw [List.drop_eq_nil_of_le (Nat.le_of_lt (Nat.lt_of_not_le hle))] at hn
      exact hn

/-- A wildcard-free pattern matches exactly the text equal to it. -/
theorem likeMatch_lit_iff (p : List Char)
    (hp : ∀ ch ∈ p, ch ≠ '%' ∧ ch ≠ '_' ∧ ch ≠ '\\') :
    ∀ s, likeMatch p s = true ↔ s = p := by
  induction p with
  | nil =>
    intro s
    simp [likeMatch, List.isEmpty_iff]
  | cons c p' ih =>
    intro s
    obtain ⟨hc1, hc2, hc3⟩ := hp c (List.mem_cons_self c p')
    have ih' := ih (fun ch hch => hp ch (List.mem_cons_of_mem c hch))
    cases s with
    | nil =>
      simp [likeMatch, hc1, hc2, hc3]
    | cons e s' =>
      have hunf : likeMatch (c :: p') (e :: s') = (c == e && likeMatch p' s') := by
        simp [likeMatch, hc1, hc2, hc3]
      rw [hunf, Bool.and_eq_true, beq_iff_eq, ih' s', List.cons.injEq]
      constructor
      · rintro ⟨h1, h2⟩
        exact ⟨h1.symm, h2⟩
      · rintro ⟨h1, h2⟩
        exact ⟨h1.symm, h2⟩

/-- The pattern consisting of a single `%` matches every text. -/
theorem likeMatch_pct_nil_pattern : ∀ t, likeMatch ['%'] t = true := by
  intro t
  rw [likeMatch_pct_iff]
  refine ⟨t.length, ?_⟩
  rw [List.drop_length]
  rfl

/-- A wildcard-free pattern followed by `%` matches exactly the texts that
start with it. -/
theorem likeMatch_append_pct_iff (p : List Char)
    (hp : ∀ ch ∈ p, ch ≠ '%' ∧ ch ≠ '_' ∧ ch ≠ '\\') :
    ∀ t, likeMatch (p ++ ['%']) t = true ↔ p <+: t := by
  induction p with
  | nil =>
    intro t
    simp [likeMatch_pct_nil_pattern t]
  | cons c p' ih =>
    intro t
    obtain ⟨hc1, hc2, hc3⟩ := hp c (List.mem_cons_self c p')
    have ih' := ih (fun ch hch => hp ch (List.mem_cons_of_mem c hch))
    cases t with
    | nil =>
      simp [likeMatch, hc1, hc2, hc3]
    | cons e t' =>
      have hunf : likeMatch ((c :: p') ++ ['%']) (e :: t')
          = (c == e && likeMatch (p' ++ ['%']) t') := by
        simp [likeMatch, hc1, hc2, hc3]
      rw [hunf, Bool.and_eq_true, beq_iff_eq, ih' t', List.cons_prefix_cons]

/-- A list is an infix of another exactly when it starts some suffix. -/
theorem infix_iff_exists_drop {α : Type _} (q s : List α) :
    q <:+: s ↔ ∃ n, q <+: s.drop n := by
  constructor
  · rintro ⟨u, v, rfl⟩
    refine ⟨u.length, ?_⟩
    rw [List.append_assoc, List.drop_left]
    exact ⟨v, rfl⟩
  · rintro ⟨n, ⟨v, hv⟩⟩
    refine ⟨s.take n, v, ?_⟩
    rw [List.append_assoc, hv, List.take_append_drop]

/-- For a q free of wildcard characters, the ilike filter of list_clients is
exactly case-insensitive substring matching. -/
theorem ilike_pct_substring (q s : String)
    (hq : ∀ ch ∈ q.toList, Char.toLower ch ≠ '%' ∧ Char.toLower ch ≠ '_' ∧
      Char.toLower ch ≠ '\\') :
    (ilike s ("%" ++ q ++ "%") = true ↔ ciSub q s) := by
  unfold ilike ciSub
  rw [pattern_toList]
  have hmap : ('%' :: q.toList ++ ['%']).map Char.toLower
      = '%' :: q.toList.map Char.toLower ++ ['%'] := by
    simp
  rw [hmap]
  have hwf : ∀ ch ∈ q.toList.map Char.toLower, ch ≠ '%' ∧ ch ≠ '_' ∧ ch ≠ '\\' := by
    intro ch hch
    obtain ⟨x, hx, rfl⟩ := List.mem_map.mp hch
    exact hq x hx
  refine Iff.trans (likeMatch_pct_iff _ _) (Iff.trans ?_ (infix_iff_exists_drop _ _).symm)
  exact exists_congr (fun n => likeMatch_append_pct_iff _ hwf _)

/-- The free-text condition of list_clients, characterized as substring
matching for wildcard-free q: a client matches exactly when q occurs
case-insensitively in the first, last or (non-null) middle name. -/
theorem likeQ_iff (q : String) (c : Client)
    (hq : ∀ ch ∈ q.toList, Char.toLower ch ≠ '%' ∧ Char.toLower ch ≠ '_' ∧
      Char.toLower ch ≠ '\\') :
    (likeQ q c = true ↔
      (ciSub q c.first_name ∨ ciSub q c.last_name ∨
        ∃ m, c.middle_name = some m ∧ ciSub q m)) := by
  unfold likeQ
  simp only [Bool.or_eq_true]
  rw [ilike_pct_substring q c.first_name hq, ilike_pct_substring q c.last_name hq]
  cases hm : c.middle_name with
  | none => simp
  | some m =>
    rw [ilike_pct_substring q m hq]
    simp [or_assoc]

/-- Counterexample to claim C8 as stated: with q = x_ (an unescaped SQL
wildcard), the client named xy is returned by list_clients although x_ is
not a case-insensitive substring of any of its names — the free-text filter
is ILIKE on the raw pattern, not substring matching. -/
theorem list_clients_wildcard_counterexample :
    client_to_dict dbXY Loaded.all clientXY
      ∈ list_clients dbXY 0 dbXY.clients.length (some "x_") none none none ∧
    ¬ (ciSub "x_" clientXY.last_name ∨ ciSub "x_" clientXY.first_name ∨
        ∃ m, clientXY.middle_name = some m ∧ ciSub "x_" m) := by
  constructor
  · have : list_clients dbXY 0 dbXY.clients.length (some "x_") none none none
        = [client_to_dict dbXY Loaded.all clientXY] := by decide
    rw [this]
    exact List.mem_singleton.mpr rfl
  · intro h
    rcases h with h | h | ⟨m, hm, h⟩
    · exact absurd h (by unfold ciSub; decide)
    · exact absurd h (by unfold ciSub; decide)
    · rw [show clientXY.middle_name = some "" from rfl] at hm
      injection hm with hm
      rw [← hm] at h
      exact absurd h (by unfold ciSub; decide)

/-- Claim C8 (amended): with pagination wide open, a Client is returned by
list_clients exactly when it satisfies every supplied filter — status,
agent id and stage by equality, the free-text filter by ILIKE on the
unescaped pattern %q% — and for q free of the SQL wildcard characters
(percent, underscore, backslash) that free-text filter coincides with
case-insensitive substring matching against first, last or middle name. -/
theorem list_clients_filter_semantics (db : DB) (q status : Option String)
    (aid : Option Nat) (stg : Option String) (d : ClientDossier) :
    (d ∈ list_clients db 0 db.clients.length q status aid stg ↔
      ∃ c, c ∈ db.clients ∧ d = client_to_dict db Loaded.all c ∧
        listFilter q status aid stg c = true) ∧
    (∀ (q' : String) (c : Client),
      (∀ ch ∈ q'.toList, Char.toLower ch ≠ '%' ∧ Char.toLower ch ≠ '_' ∧
        Char.toLower ch ≠ '\\') →
      (likeQ q' c = true ↔
        (ciSub q' c.first_name ∨ ciSub q' c.last_name ∨
          ∃ m, c.middle_name = some m ∧ ciSub q' m))) := by
  constructor
  · unfold list_clients
    dsimp only
    have hlen : (List.insertionSort (fun a b => a.external_id ≤ b.external_id)
        (db.clients.filter (listFilter q status aid stg))).length ≤ db.clients.length := by
      rw [List.length_insertionSort]
      exact List.length_filter_le _ _
    rw [List.drop_zero, List.take_of_length_le hlen]
    constructor
    · intro hd
      obtain ⟨c, hcmem, hfc⟩ := List.mem_map.mp hd
      have hc2 := (List.mem_insertionSort _).mp hcmem
      have hc3 := List.mem_filter.mp hc2
      exact ⟨c, hc3.1, hfc.symm, hc3.2⟩
    · rintro ⟨c, hcm, rfl, hflt⟩
      exact List.mem_map.mpr
        ⟨c, (List.mem_insertionSort _).mpr (List.mem_filter.mpr ⟨hcm, hflt⟩), rfl⟩
  · intro q' c hq
    exact likeQ_iff q' c hq

/-- Witness for C8's amended theorem: on dbXY with the wildcard-free query
string a, the client xy (whose first name is a) is returned, and the
substring reading of the filter agrees. -/
theorem list_clients_filter_semantics_witness :
    client_to_dict dbXY Loaded.all clientXY
      ∈ list_clients dbXY 0 dbXY.clients.length (some "a") none none none ∧
    likeQ "a" clientXY = true := by
  have h := list_clients_filter_semantics dbXY (some "a") none none none
    (client_to_dict dbXY Loaded.all clientXY)
  refine ⟨h.1.mpr ⟨clientXY, by decide, rfl, by decide⟩, ?_⟩
  exact (h.2 "a" clientXY (by decide)).mpr (Or.inl (by unfold ciSub; decide))

end Conclave
